import Mathlib

/-!
Shallow embedding of the mp3 repository: two Express routers over a MongoDB
store that keep a bidirectional User/Task assignment relationship in sync.

Source files embedded here:
- src/routes/task.js        (tasks router: GET, POST, GET/:id, PUT/:id, DELETE/:id)
- src/unnamed/part_001      (users router: GET, POST, GET/:id, PUT/:id, DELETE/:id)
- src/unnamed/part_000      (mongoose Task schema)

Modelling conventions:
- The document store is a pair of in-memory lists (users, tasks); the mongoose
  calls used by the routes (findById, findByIdAndUpdate with dollar-pull and
  dollar-addToSet, updateMany, save, deleteOne) are embedded as pure list
  operations below.
- Request payload fields are `Option String` (none models an absent field, so
  JS `undefined`); JS truthiness of a string field (`x || d`, `if (x)`) is
  modelled by `jsStr` / `jsOr`.
- `dateCreated` is a clock-populated Date field (schema default `Date.now`);
  no claim refers to it, so it is omitted from the model.
- Handlers return `(status, store)`: the HTTP status code the route responds
  with, and the store after the request. Mongoose update validators on
  `findByIdAndUpdate` replacements are not modelled (no claim depends on them).
-/

namespace MP3

/-- Models JS string coercion of a possibly-absent payload field:
`none` (JS `undefined`) is collapsed with the empty string, which is exactly
how the routes treat it (`!x` and `x || d` do not distinguish the two). -/
def jsStr (o : Option String) : String := o.getD ""

/-- Models the JS default idiom `x || d` for a string-valued field `x`:
absent or empty gives the default `d`. -/
def jsOr (o : Option String) (d : String) : String :=
  if jsStr o = "" then d else jsStr o

/-- User document. Fields from the spec data model (the mongoose User model
file is not under src): identity, name, email, pendingTasks. -/
structure User where
  _id : String
  name : String
  email : String
  pendingTasks : List String
deriving DecidableEq, Repr

/-- Task document, from the mongoose Task schema in src/unnamed/part_000.
`completed` has type String in the schema (with a boolean default, cast by
mongoose to the string "false"); `dateCreated` is omitted (see header). -/
structure Task where
  _id : String
  name : String
  description : String
  deadline : String
  completed : String
  assignedUser : String
  assignedUserName : String
deriving DecidableEq, Repr

/-- The document store: the two collections the routers touch. -/
structure Store where
  users : List User
  tasks : List Task
deriving DecidableEq, Repr

def emptyStore : Store := { users := [], tasks := [] }

/-- Models `User.findById`. -/
def findUserById (s : Store) (uid : String) : Option User :=
  s.users.find? (fun u => u._id == uid)

/-- Models `Task.findById`. -/
def findTaskById (s : Store) (tid : String) : Option Task :=
  s.tasks.find? (fun t => t._id == tid)

/-- Models `user.save()` for a new document (insertion). -/
def insertUser (s : Store) (u : User) : Store :=
  { s with users := s.users ++ [u] }

/-- Models `task.save()` for a new document (insertion). -/
def insertTask (s : Store) (t : Task) : Store :=
  { s with tasks := s.tasks ++ [t] }

/-- Models `User.findByIdAndUpdate` / `User.updateMany`: apply `f` to every
user matching the filter `c`. -/
def updateUsersWhere (s : Store) (c : User → Bool) (f : User → User) : Store :=
  { s with users := s.users.map (fun u => if c u then f u else u) }

/-- Models `Task.findByIdAndUpdate` / `Task.updateMany`: apply `f` to every
task matching the filter `c`. -/
def updateTasksWhere (s : Store) (c : Task → Bool) (f : Task → Task) : Store :=
  { s with tasks := s.tasks.map (fun t => if c t then f t else t) }

/-- Models `deleted.deleteOne()` on a user document. -/
def deleteUserById (s : Store) (uid : String) : Store :=
  { s with users := s.users.filter (fun u => !(u._id == uid)) }

/-- Models `deleted.deleteOne()` on a task document. -/
def deleteTaskById (s : Store) (tid : String) : Store :=
  { s with tasks := s.tasks.filter (fun t => !(t._id == tid)) }

/-- Models the dollar-addToSet update on `pendingTasks` (set semantics:
append only when absent). -/
def addToSetPending (u : User) (tid : String) : User :=
  if tid ∈ u.pendingTasks then u
  else { u with pendingTasks := u.pendingTasks ++ [tid] }

/-- Models the dollar-pull update on `pendingTasks`. -/
def pullPending (u : User) (tid : String) : User :=
  { u with pendingTasks := u.pendingTasks.filter (fun x => !(x == tid)) }

/-- Models `mongoose.Types.ObjectId.isValid` for the usual 24-hex-character
id form (both routers validate `:id` with it before touching the store). -/
def isValidObjectId (s : String) : Bool :=
  s.length == 24 && s.toList.all (fun c =>
    c.isDigit || ('a' ≤ c && c ≤ 'f') || ('A' ≤ c && c ≤ 'F'))

/-- Request body for the user routes: `name`, `email`, `pendingTasks`.
`pendingTasks = none` models an omitted or non-array value (the routes guard
every read of it with `Array.isArray`); `name`/`email` as `none` model an
absent (or non-string, for the PUT typeof check) field. -/
structure UserPayload where
  name : Option String
  email : Option String
  pendingTasks : Option (List String)
deriving DecidableEq, Repr

/-- Request body for the task routes, the fields destructured by
POST /tasks and PUT /tasks/:id (minus the omitted dateCreated). -/
structure TaskPayload where
  name : Option String
  description : Option String
  deadline : Option String
  completed : Option String
  assignedUser : Option String
  assignedUserName : Option String
deriving DecidableEq, Repr

/-- Modelled from the spec: save-time validation of the mongoose User model,
whose file (models/user.js) is not under src. Per the spec data model, `name`
(string, required) and `email` (string, required); a mongoose required check
on a String field fails on an absent or empty value. -/
def userSaveOk (u : User) : Bool :=
  !(u.name == "") && !(u.email == "")

/-- POST /users (src/unnamed/part_001 lines 103-117): build the new user from
the payload (`pendingTasks` only when an array) and save it. The route has no
explicit field validation; a failing save lands in the catch block, which
responds 500. -/
def usersCreate (s : Store) (freshId : String) (p : UserPayload) : Nat × Store :=
  let u : User :=
    { _id := freshId, name := jsStr p.name, email := jsStr p.email,
      pendingTasks := p.pendingTasks.getD [] }
  if userSaveOk u then (201, insertUser s u) else (500, s)

/-- The updateMany payload shared by the unassign arms of the user routes:
`assignedUser` to the empty sentinel, `assignedUserName` to "unassigned". -/
def unassignTask (t : Task) : Task :=
  { t with assignedUser := "", assignedUserName := "unassigned" }

/-- PUT /users/:id (src/unnamed/part_001 lines 140-195): validate the id and
the typeof of name/email (400), 404 when absent; then diff the old and new
`pendingTasks` sets, bulk-unassign tasks only in the old set, bulk-assign
tasks only in the new set (to this id and the new name), and finally replace
the user document wholesale. -/
def usersPut (s : Store) (uid : String) (p : UserPayload) : Nat × Store :=
  if !(isValidObjectId uid) then (400, s) else
  match p.name, p.email with
  | some nm, some em =>
    match findUserById s uid with
    | none => (404, s)
    | some existingUser =>
      let newPending := p.pendingTasks.getD []
      let oldPending := existingUser.pendingTasks
      let s1 := updateTasksWhere s
        (fun t => decide (t._id ∈ oldPending) && !(decide (t._id ∈ newPending)))
        unassignTask
      let s2 := updateTasksWhere s1
        (fun t => decide (t._id ∈ newPending) && !(decide (t._id ∈ oldPending)))
        (fun t => { t with assignedUser := uid, assignedUserName := nm })
      let s3 := updateUsersWhere s2 (fun u => u._id == uid)
        (fun _ => { _id := uid, name := nm, email := em, pendingTasks := newPending })
      (200, s3)
  | _, _ => (400, s)

/-- DELETE /users/:id (src/unnamed/part_001 lines 198-221): validate the id
(400), 404 when absent; otherwise bulk-unassign every task whose
`assignedUser` equals this id, then delete the user document. -/
def usersDelete (s : Store) (uid : String) : Nat × Store :=
  if !(isValidObjectId uid) then (400, s) else
  match findUserById s uid with
  | none => (404, s)
  | some _ =>
    let s1 := updateTasksWhere s (fun t => t.assignedUser == uid) unassignTask
    (200, deleteUserById s1 uid)

/-- The task document built by POST /tasks and the replacement object of
PUT /tasks/:id (identical field expressions in the source). -/
def taskFromPayload (tid : String) (p : TaskPayload) : Task :=
  { _id := tid, name := jsStr p.name, description := jsOr p.description "",
    deadline := jsStr p.deadline, completed := jsOr p.completed "false",
    assignedUser := jsOr p.assignedUser "",
    assignedUserName := jsOr p.assignedUserName "unassigned" }

/-- POST /tasks (src/routes/task.js lines 94-131): 400 when name or deadline
is falsy; when `assignedUser` is truthy, 400 unless that user exists, else
dollar-addToSet the fresh task id into its `pendingTasks`; finally save the
new task built from the payload. -/
def tasksCreate (s : Store) (freshId : String) (p : TaskPayload) : Nat × Store :=
  if jsStr p.name == "" || jsStr p.deadline == "" then (400, s)
  else
    let task := taskFromPayload freshId p
    if !(jsStr p.assignedUser == "") then
      match findUserById s (jsStr p.assignedUser) with
      | none => (400, s)
      | some _ =>
        let s1 := updateUsersWhere s (fun u => u._id == jsStr p.assignedUser)
          (fun u => addToSetPending u freshId)
        (201, insertTask s1 task)
    else (201, insertTask s task)

/-- PUT /tasks/:id (src/routes/task.js lines 168-226): validate the id (400),
404 when absent. When the payload `assignedUser` strictly differs from the
stored one: first dollar-pull the id from the old owner (when non-empty),
then, when the new value is truthy, 400 unless the new user exists, else
dollar-addToSet; finally overwrite the task with the replacement built from
the payload. Note the pull precedes the new-user existence check, exactly as
in the source. -/
def tasksPut (s : Store) (tid : String) (p : TaskPayload) : Nat × Store :=
  if !(isValidObjectId tid) then (400, s) else
  match findTaskById s tid with
  | none => (404, s)
  | some existingTask =>
    let finishReplace := fun (st : Store) =>
      (200, updateTasksWhere st (fun t => t._id == tid) (fun _ => taskFromPayload tid p))
    if p.assignedUser == some existingTask.assignedUser then
      finishReplace s
    else
      let s1 := if !(existingTask.assignedUser == "") then
          updateUsersWhere s (fun u => u._id == existingTask.assignedUser)
            (fun u => pullPending u tid)
        else s
      if !(jsStr p.assignedUser == "") then
        match findUserById s1 (jsStr p.assignedUser) with
        | none => (400, s1)
        | some _ =>
          let s2 := updateUsersWhere s1 (fun u => u._id == jsStr p.assignedUser)
            (fun u => addToSetPending u tid)
          finishReplace s2
      else finishReplace s1

/-- DELETE /tasks/:id (src/routes/task.js lines 229-253): validate the id
(400), 404 when absent; dollar-pull the id from the owner when assigned, then
delete the task document. -/
def tasksDelete (s : Store) (tid : String) : Nat × Store :=
  if !(isValidObjectId tid) then (400, s) else
  match findTaskById s tid with
  | none => (404, s)
  | some deletedTask =>
    let s1 := if !(deletedTask.assignedUser == "") then
        updateUsersWhere s (fun u => u._id == deletedTask.assignedUser)
          (fun u => pullPending u tid)
      else s
    (200, deleteTaskById s1 tid)

/-- A numeric query parameter after `Number(str)`: either the value is not an
integer (NaN or fractional, the `!Number.isInteger` branch) or it is the
integer `i` (possibly negative). An absent parameter is `none` at use sites. -/
inductive NumParam where
  | notInt
  | intVal (i : Int)
deriving DecidableEq, Repr

/-- What a list endpoint responds with: a 400-class rejection, a document
array, or (for count mode) a scalar count. -/
inductive ListResult (α : Type) where
  | err
  | docs (xs : List α)
  | count (n : Nat)
deriving DecidableEq, Repr

/-- Models the store applying `query.limit(n)` to a result list: a MongoDB
cursor limit of 0 means no limit. -/
def applyLimit {α : Type} (n : Nat) (xs : List α) : List α :=
  if n == 0 then xs else xs.take n

/-- The tail of GET /tasks after the where/select/sort/skip checks
(src/routes/task.js lines 64-86): limit defaults to 100 when absent, a
non-integer or negative value is a 400; `count=true` short-circuits to a
count of the documents matching the filter, ignoring skip and limit. -/
def tasksListTail (s : Store) (filter : Task → Bool) (skip : Nat)
    (limitQ : Option NumParam) (countQ : Option String) : Nat × ListResult Task :=
  let limOk : Option Nat := match limitQ with
    | none => some 100
    | some NumParam.notInt => none
    | some (NumParam.intVal i) => if i < 0 then none else some i.toNat
  match limOk with
  | none => (400, ListResult.err)
  | some lim =>
    if countQ == some "true" then (200, ListResult.count (s.tasks.filter filter).length)
    else (200, ListResult.docs (applyLimit lim ((s.tasks.filter filter).drop skip)))

/-- GET /tasks (src/routes/task.js lines 8-91). The `where` parameter:
`none` is absent (match-all filter), `some none` is present but invalid JSON
(400), `some (some f)` is a parsed filter, modelled as the store predicate it
denotes. `select`/`sort`: `none` absent, `some false` invalid JSON (400),
`some true` parses; the projection and ordering themselves are not modelled
(they do not change which documents match or how many are returned). -/
def tasksList (s : Store) (whereQ : Option (Option (Task → Bool)))
    (selectQ sortQ : Option Bool) (skipQ limitQ : Option NumParam)
    (countQ : Option String) : Nat × ListResult Task :=
  match whereQ with
  | some none => (400, ListResult.err)
  | _ =>
    let filter : Task → Bool := match whereQ with
      | some (some f) => f
      | _ => fun _ => true
    if selectQ == some false then (400, ListResult.err)
    else if sortQ == some false then (400, ListResult.err)
    else
      match skipQ with
      | some NumParam.notInt => (400, ListResult.err)
      | some (NumParam.intVal i) =>
        if i < 0 then (400, ListResult.err)
        else tasksListTail s filter i.toNat limitQ countQ
      | none => tasksListTail s filter 0 limitQ countQ

/-- The tail of GET /users after the where/select/sort/skip checks
(src/unnamed/part_001 lines 76-95): no default limit — `query.limit` is only
called when the parameter is present; non-integer or negative is a 400;
`count=true` short-circuits to a count. -/
def usersListTail (s : Store) (filter : User → Bool) (skip : Nat)
    (limitQ : Option NumParam) (countQ : Option String) : Nat × ListResult User :=
  match limitQ with
  | some NumParam.notInt => (400, ListResult.err)
  | some (NumParam.intVal i) =>
    if i < 0 then (400, ListResult.err)
    else if countQ == some "true" then (200, ListResult.count (s.users.filter filter).length)
    else (200, ListResult.docs (applyLimit i.toNat ((s.users.filter filter).drop skip)))
  | none =>
    if countQ == some "true" then (200, ListResult.count (s.users.filter filter).length)
    else (200, ListResult.docs ((s.users.filter filter).drop skip))

/-- GET /users (src/unnamed/part_001 lines 17-100); parameters modelled as in
`tasksList`. -/
def usersList (s : Store) (whereQ : Option (Option (User → Bool)))
    (selectQ sortQ : Option Bool) (skipQ limitQ : Option NumParam)
    (countQ : Option String) : Nat × ListResult User :=
  match whereQ with
  | some none => (400, ListResult.err)
  | _ =>
    let filter : User → Bool := match whereQ with
      | some (some f) => f
      | _ => fun _ => true
    if selectQ == some false then (400, ListResult.err)
    else if sortQ == some false then (400, ListResult.err)
    else
      match skipQ with
      | some NumParam.notInt => (400, ListResult.err)
      | some (NumParam.intVal i) =>
        if i < 0 then (400, ListResult.err)
        else usersListTail s filter i.toNat limitQ countQ
      | none => usersListTail s filter 0 limitQ countQ

/-- One state-changing request against the API. The fresh ids of the create
operations stand for the store-generated ObjectIds. -/
inductive Op where
  | userCreate (freshId : String) (p : UserPayload)
  | userPut (uid : String) (p : UserPayload)
  | userDelete (uid : String)
  | taskCreate (freshId : String) (p : TaskPayload)
  | taskPut (tid : String) (p : TaskPayload)
  | taskDelete (tid : String)
deriving DecidableEq, Repr

/-- Dispatch one operation to its route handler. -/
def applyOp (s : Store) : Op → Nat × Store
  | Op.userCreate fid p => usersCreate s fid p
  | Op.userPut uid p => usersPut s uid p
  | Op.userDelete uid => usersDelete s uid
  | Op.taskCreate fid p => tasksCreate s fid p
  | Op.taskPut tid p => tasksPut s tid p
  | Op.taskDelete tid => tasksDelete s tid

/-- A request completed successfully when the route responded 200 or 201. -/
def isOk (st : Nat) : Bool := st == 200 || st == 201

/-- Run a sequence of operations, requiring every one of them to complete
successfully; `none` as soon as any request is rejected. -/
def runOps : Store → List Op → Option Store
  | s, [] => some s
  | s, op :: rest =>
    let r := applyOp s op
    if isOk r.1 then runOps r.2 rest else none

/-- Admissibility of one operation against the current store, used by the
amended invariant claims: create operations use genuinely fresh (and, for
users, nonempty) ids, standing for store-generated ObjectIds; a user-create
payload carries no pendingTasks; and every task id newly introduced by a
user-replacement payload names an existing unassigned task. -/
def admissible (s : Store) : Op → Bool
  | Op.userCreate fid p =>
    !(fid == "") && !(decide (fid ∈ s.users.map (fun u => u._id)))
      && (p.pendingTasks.getD []).isEmpty
  | Op.userPut uid p =>
    let oldPending := match findUserById s uid with
      | some u => u.pendingTasks
      | none => []
    (p.pendingTasks.getD []).all (fun tid =>
      decide (tid ∈ oldPending)
        || decide (∃ t ∈ s.tasks, t._id = tid ∧ t.assignedUser = ""))
  | Op.taskCreate fid _ => !(decide (fid ∈ s.tasks.map (fun t => t._id)))
  | _ => true

/-- Run a sequence of operations, requiring each to be admissible in the
state it executes in and to complete successfully. -/
def runAdmissible : Store → List Op → Option Store
  | s, [] => some s
  | s, op :: rest =>
    if admissible s op then
      let r := applyOp s op
      if isOk r.1 then runAdmissible r.2 rest else none
    else none

/-- Store well-formedness: document ids are unique per collection (they stand
for store-generated ObjectIds) and no user carries the empty id (the empty
string is the no-assignment sentinel of `assignedUser`, never a user id). -/
def WF (s : Store) : Prop :=
  (s.users.map (fun u => u._id)).Nodup ∧ (s.tasks.map (fun t => t._id)).Nodup
    ∧ ∀ u ∈ s.users, u._id ≠ ""

/-- Invariant I1 of the spec, both directions: an assigned task points at an
existing user whose pendingTasks contains it, and every id in a pendingTasks
list is the id of a task assigned to that user. -/
def Inv1 (s : Store) : Prop :=
  (∀ t ∈ s.tasks, t.assignedUser ≠ "" →
    ∃ u ∈ s.users, u._id = t.assignedUser ∧ t._id ∈ u.pendingTasks) ∧
  (∀ u ∈ s.users, ∀ tid ∈ u.pendingTasks,
    ∃ t ∈ s.tasks, t._id = tid ∧ t.assignedUser = u._id)

/-- Invariant I4 of the spec: no task id appears in the pendingTasks of two
distinct users. -/
def Inv4 (s : Store) : Prop :=
  ∀ u ∈ s.users, ∀ v ∈ s.users, u._id ≠ v._id →
    ∀ tid ∈ u.pendingTasks, tid ∉ v.pendingTasks

/-- The conjunction preserved by every admissible successful operation. -/
def GoodState (s : Store) : Prop := WF s ∧ Inv1 s ∧ Inv4 s

instance (s : Store) : Decidable (WF s) := by unfold WF; infer_instance

instance (s : Store) : Decidable (Inv1 s) := by unfold Inv1; infer_instance

instance (s : Store) : Decidable (Inv4 s) := by unfold Inv4; infer_instance

instance (s : Store) : Decidable (GoodState s) := by unfold GoodState; infer_instance

/-! Helper lemmas about the store primitives. -/

@[simp] theorem updateTasksWhere_users (s : Store) (c : Task → Bool) (f : Task → Task) :
    (updateTasksWhere s c f).users = s.users := rfl

@[simp] theorem updateTasksWhere_tasks (s : Store) (c : Task → Bool) (f : Task → Task) :
    (updateTasksWhere s c f).tasks = s.tasks.map (fun t => if c t then f t else t) := rfl

@[simp] theorem updateUsersWhere_users (s : Store) (c : User → Bool) (f : User → User) :
    (updateUsersWhere s c f).users = s.users.map (fun u => if c u then f u else u) := rfl

@[simp] theorem updateUsersWhere_tasks (s : Store) (c : User → Bool) (f : User → User) :
    (updateUsersWhere s c f).tasks = s.tasks := rfl

@[simp] theorem insertUser_users (s : Store) (u : User) :
    (insertUser s u).users = s.users ++ [u] := rfl

@[simp] theorem insertUser_tasks (s : Store) (u : User) :
    (insertUser s u).tasks = s.tasks := rfl

@[simp] theorem insertTask_users (s : Store) (t : Task) :
    (insertTask s t).users = s.users := rfl

@[simp] theorem insertTask_tasks (s : Store) (t : Task) :
    (insertTask s t).tasks = s.tasks ++ [t] := rfl

@[simp] theorem deleteUserById_users (s : Store) (uid : String) :
    (deleteUserById s uid).users = s.users.filter (fun u => !(u._id == uid)) := rfl

@[simp] theorem deleteUserById_tasks (s : Store) (uid : String) :
    (deleteUserById s uid).tasks = s.tasks := rfl

@[simp] theorem deleteTaskById_users (s : Store) (tid : String) :
    (deleteTaskById s tid).users = s.users := rfl

@[simp] theorem deleteTaskById_tasks (s : Store) (tid : String) :
    (deleteTaskById s tid).tasks = s.tasks.filter (fun t => !(t._id == tid)) := rfl

theorem findUserById_mem {s : Store} {uid : String} {u : User}
    (h : findUserById s uid = some u) : u ∈ s.users ∧ u._id = uid := by
  refine ⟨List.mem_of_find?_eq_some h, ?_⟩
  have := List.find?_some h
  simpa using this

theorem findTaskById_mem {s : Store} {tid : String} {t : Task}
    (h : findTaskById s tid = some t) : t ∈ s.tasks ∧ t._id = tid := by
  refine ⟨List.mem_of_find?_eq_some h, ?_⟩
  have := List.find?_some h
  simpa using this

theorem findUserById_none {s : Store} {uid : String}
    (h : findUserById s uid = none) : ∀ u ∈ s.users, u._id ≠ uid := by
  unfold findUserById at h
  rw [List.find?_eq_none] at h
  intro u hu
  simpa using h u hu

theorem findTaskById_none {s : Store} {tid : String}
    (h : findTaskById s tid = none) : ∀ t ∈ s.tasks, t._id ≠ tid := by
  unfold findTaskById at h
  rw [List.find?_eq_none] at h
  intro t ht
  simpa using h t ht

/-- Two list elements with the same key are equal when the key list is nodup. -/
theorem key_inj {α : Type} {l : List α} {key : α → String} (h : (l.map key).Nodup)
    {x y : α} (hx : x ∈ l) (hy : y ∈ l) (hk : key x = key y) : x = y :=
  List.inj_on_of_nodup_map h hx hy hk

theorem mem_addToSetPending {u : User} {tid x : String} :
    x ∈ (addToSetPending u tid).pendingTasks ↔ x ∈ u.pendingTasks ∨ x = tid := by
  unfold addToSetPending
  by_cases h : tid ∈ u.pendingTasks
  · simp only [if_pos h]
    constructor
    · exact Or.inl
    · rintro (hx | rfl)
      · exact hx
      · exact h
  · simp [if_neg h]

theorem mem_pullPending {u : User} {tid x : String} :
    x ∈ (pullPending u tid).pendingTasks ↔ x ∈ u.pendingTasks ∧ x ≠ tid := by
  simp [pullPending, List.mem_filter]

@[simp] theorem addToSetPending_id (u : User) (tid : String) :
    (addToSetPending u tid)._id = u._id := by
  unfold addToSetPending
  split <;> rfl

@[simp] theorem pullPending_id (u : User) (tid : String) :
    (pullPending u tid)._id = u._id := rfl

/-- Updating elements with a key-preserving function keeps the key list. -/
theorem map_key_update {α : Type} (l : List α) (key : α → String) (c : α → Bool)
    (f : α → α) (h : ∀ x, c x = true → key (f x) = key x) :
    (l.map (fun x => if c x then f x else x)).map key = l.map key := by
  rw [List.map_map]
  apply List.map_congr_left
  intro x _
  by_cases hc : c x
  · simp [hc, h x hc]
  · simp [hc]

theorem isValidObjectId_ne_empty {s : String} (h : isValidObjectId s = true) :
    s ≠ "" := by
  intro he
  subst he
  simp [isValidObjectId] at h

/-! Preservation of `GoodState` by each successful admissible operation. -/

theorem goodState_insertUser {s : Store} {u : User} (hg : GoodState s)
    (hfresh : u._id ∉ s.users.map (fun x => x._id))
    (hne : u._id ≠ "") (hpend : u.pendingTasks = []) :
    GoodState (insertUser s u) := by
  obtain ⟨⟨hwu, hwt, hid0⟩, ⟨h1a, h1b⟩, h4⟩ := hg
  simp only [GoodState, WF, Inv1, Inv4] at *
  refine ⟨⟨?_, ?_, ?_⟩, ⟨?_, ?_⟩, ?_⟩
  · simp only [insertUser_users, List.map_append, List.map_cons, List.map_nil]
    simp [List.nodup_append, hwu, hfresh]
  · simpa using hwt
  · intro v hv
    simp only [insertUser_users, List.mem_append, List.mem_singleton] at hv
    rcases hv with hv | rfl
    · exact hid0 v hv
    · exact hne
  · intro t ht hne'
    simp only [insertUser_tasks] at ht
    obtain ⟨v, hv, h1, h2⟩ := h1a t ht hne'
    exact ⟨v, by simp [List.mem_append, hv], h1, h2⟩
  · intro v hv tid htid
    simp only [insertUser_users, List.mem_append, List.mem_singleton] at hv
    rcases hv with hv | rfl
    · obtain ⟨t, ht, h1, h2⟩ := h1b v hv tid htid
      exact ⟨t, by simpa using ht, h1, h2⟩
    · rw [hpend] at htid
      simp at htid
  · intro v hv w hw hvw tid htid
    simp only [insertUser_users, List.mem_append, List.mem_singleton] at hv hw
    rcases hv with hv | rfl
    · rcases hw with hw | rfl
      · exact h4 v hv w hw hvw tid htid
      · rw [hpend]
        simp
    · rw [hpend] at htid
      simp at htid

theorem step_userCreate {s : Store} {fid : String} {p : UserPayload}
    (hg : GoodState s)
    (hfresh : fid ∉ s.users.map (fun u => u._id))
    (hne : fid ≠ "")
    (hpend : p.pendingTasks.getD [] = []) :
    GoodState (usersCreate s fid p).2 := by
  simp only [usersCreate]
  split
  · exact goodState_insertUser hg hfresh hne hpend
  · exact hg

theorem step_userDelete {s : Store} {uid : String}
    (hg : GoodState s) :
    GoodState (usersDelete s uid).2 := by
  obtain ⟨⟨hwu, hwt, hid0⟩, ⟨h1a, h1b⟩, h4⟩ := hg
  unfold usersDelete
  split
  · exact ⟨⟨hwu, hwt, hid0⟩, ⟨h1a, h1b⟩, h4⟩
  · split
    · exact ⟨⟨hwu, hwt, hid0⟩, ⟨h1a, h1b⟩, h4⟩
    · rename_i huser _
      simp only [GoodState, WF, Inv1, Inv4]
      refine ⟨⟨?_, ?_, ?_⟩, ⟨?_, ?_⟩, ?_⟩
      · simp only [deleteUserById_users, updateTasksWhere_users]
        have : (s.users.filter (fun u => !(u._id == uid))).map (fun u => u._id)
            |>.Sublist (s.users.map (fun u => u._id)) :=
          (List.filter_sublist _).map _
        exact hwu.sublist this
      · simp only [deleteUserById_tasks, updateTasksWhere_tasks]
        rw [map_key_update]
        · exact hwt
        · intro t _
          rfl
      · intro v hv
        simp only [deleteUserById_users, updateTasksWhere_users, List.mem_filter] at hv
        exact hid0 v hv.1
      · -- assigned tasks still point at an existing user holding them
        intro t ht hne'
        simp only [deleteUserById_tasks, updateTasksWhere_tasks, List.mem_map] at ht
        obtain ⟨t0, ht0, rfl⟩ := ht
        by_cases hc : (t0.assignedUser == uid) = true
        · rw [if_pos hc] at hne'
          simp [unassignTask] at hne'
        · rw [if_neg hc] at hne' ⊢
          obtain ⟨v, hv, h1, h2⟩ := h1a t0 ht0 hne'
          refine ⟨v, ?_, h1, h2⟩
          simp only [deleteUserById_users, updateTasksWhere_users, List.mem_filter]
          refine ⟨hv, ?_⟩
          rw [Bool.not_eq_true', beq_eq_false_iff_ne]
          intro hvid
          rw [beq_iff_eq] at hc
          exact hc (by rw [← h1]; exact hvid)
      · intro v hv tid htid
        simp only [deleteUserById_users, updateTasksWhere_users, List.mem_filter,
          Bool.not_eq_true', beq_eq_false_iff_ne, ne_eq] at hv
        obtain ⟨hv, hvid⟩ := hv
        obtain ⟨t, ht, h1, h2⟩ := h1b v hv tid htid
        refine ⟨if t.assignedUser == uid then unassignTask t else t, ?_, ?_⟩
        · simp only [deleteUserById_tasks, updateTasksWhere_tasks, List.mem_map]
          exact ⟨t, ht, rfl⟩
        · have hne2 : ¬((t.assignedUser == uid) = true) := by
            rw [beq_iff_eq, h2]
            exact hvid
          rw [if_neg hne2]
          exact ⟨h1, h2⟩
      · intro v hv w hw hvw tid htid
        simp only [deleteUserById_users, updateTasksWhere_users, List.mem_filter] at hv hw
        exact h4 v hv.1 w hw.1 hvw tid htid

theorem jsOr_of_ne {o : Option String} {d : String} (h : jsStr o ≠ "") :
    jsOr o d = jsStr o := by
  unfold jsOr
  rw [if_neg h]

theorem jsOr_of_empty {o : Option String} {d : String} (h : jsStr o = "") :
    jsOr o d = d := by
  unfold jsOr
  rw [if_pos h]

theorem step_taskCreate {s : Store} {fid : String} {p : TaskPayload}
    (hg : GoodState s)
    (hfresh : fid ∉ s.tasks.map (fun t => t._id)) :
    GoodState (tasksCreate s fid p).2 := by
  obtain ⟨⟨hwu, hwt, hid0⟩, ⟨h1a, h1b⟩, h4⟩ := hg
  have hfreshPend : ∀ u ∈ s.users, fid ∉ u.pendingTasks := by
    intro u hu hmem
    obtain ⟨t, ht, h1, _⟩ := h1b u hu fid hmem
    apply hfresh
    rw [← h1]
    exact List.mem_map_of_mem _ ht
  simp only [tasksCreate]
  split
  · exact ⟨⟨hwu, hwt, hid0⟩, ⟨h1a, h1b⟩, h4⟩
  · split
    · -- payload assignedUser is truthy: existence check, addToSet, insert
      split
      · exact ⟨⟨hwu, hwt, hid0⟩, ⟨h1a, h1b⟩, h4⟩
      · rename_i hreq hassigned _ u0 hu0
        have huid : jsStr p.assignedUser ≠ "" := by
          rw [Bool.not_eq_true', beq_eq_false_iff_ne] at hassigned
          exact hassigned
        obtain ⟨hu0mem, hu0id⟩ := findUserById_mem hu0
        have htask_user : (taskFromPayload fid p).assignedUser = jsStr p.assignedUser := by
          simp only [taskFromPayload]
          exact jsOr_of_ne huid
        simp only [GoodState, WF, Inv1, Inv4]
        refine ⟨⟨?_, ?_, ?_⟩, ⟨?_, ?_⟩, ?_⟩
        · simp only [insertTask_users, updateUsersWhere_users]
          rw [map_key_update]
          · exact hwu
          · intro u _
            simp
        · simp only [insertTask_tasks, updateUsersWhere_tasks, List.map_append,
            List.map_cons, List.map_nil]
          have : (taskFromPayload fid p)._id = fid := rfl
          rw [this]
          simp [List.nodup_append, hwt, hfresh]
        · intro v hv
          simp only [insertTask_users, updateUsersWhere_users] at hv
          obtain ⟨u, hu, rfl⟩ := List.mem_map.mp hv
          by_cases hc : (u._id == jsStr p.assignedUser) = true
          · rw [if_pos hc]
            simp only [addToSetPending_id]
            exact hid0 u hu
          · rw [if_neg hc]
            exact hid0 u hu
        · -- Inv1 forward
          intro t ht hne'
          simp only [insertTask_tasks, updateUsersWhere_tasks, List.mem_append,
            List.mem_singleton] at ht
          rcases ht with ht | rfl
          · obtain ⟨v, hv, h1, h2⟩ := h1a t ht hne'
            refine ⟨(fun u => if u._id == jsStr p.assignedUser
              then addToSetPending u fid else u) v, ?_, ?_, ?_⟩
            · simp only [insertTask_users, updateUsersWhere_users]
              exact List.mem_map_of_mem _ hv
            · by_cases hc : (v._id == jsStr p.assignedUser) = true
              · simp only [if_pos hc, addToSetPending_id]
                exact h1
              · simp only [if_neg hc]
                exact h1
            · by_cases hc : (v._id == jsStr p.assignedUser) = true
              · simp only [if_pos hc]
                exact mem_addToSetPending.mpr (Or.inl h2)
              · simp only [if_neg hc]
                exact h2
          · refine ⟨addToSetPending u0 fid, ?_, ?_, ?_⟩
            · simp only [insertTask_users, updateUsersWhere_users]
              have hc : (u0._id == jsStr p.assignedUser) = true := by
                rw [beq_iff_eq]
                exact hu0id
              have := List.mem_map_of_mem
                (fun u => if u._id == jsStr p.assignedUser then addToSetPending u fid else u)
                hu0mem
              simpa only [if_pos hc] using this
            · rw [addToSetPending_id, hu0id, htask_user]
            · have : (taskFromPayload fid p)._id = fid := rfl
              rw [this]
              exact mem_addToSetPending.mpr (Or.inr rfl)
        · -- Inv1 converse
          intro v hv tid htid
          simp only [insertTask_users, updateUsersWhere_users] at hv
          obtain ⟨u, hu, rfl⟩ := List.mem_map.mp hv
          by_cases hc : (u._id == jsStr p.assignedUser) = true
          · rw [if_pos hc] at htid ⊢
            rcases mem_addToSetPending.mp htid with hmem | heq
            · obtain ⟨t, ht, h1, h2⟩ := h1b u hu tid hmem
              refine ⟨t, ?_, h1, ?_⟩
              · simp only [insertTask_tasks, updateUsersWhere_tasks, List.mem_append]
                exact Or.inl ht
              · rw [addToSetPending_id]
                exact h2
            · refine ⟨taskFromPayload fid p, ?_, ?_, ?_⟩
              · simp
              · exact heq.symm
              · rw [htask_user, addToSetPending_id]
                rw [beq_iff_eq] at hc
                exact hc.symm
          · rw [if_neg hc] at htid ⊢
            obtain ⟨t, ht, h1, h2⟩ := h1b u hu tid htid
            refine ⟨t, ?_, h1, h2⟩
            simp only [insertTask_tasks, updateUsersWhere_tasks, List.mem_append]
            exact Or.inl ht
        · -- Inv4
          intro v hv w hw hvw tid htid hwtid
          simp only [insertTask_users, updateUsersWhere_users] at hv hw
          obtain ⟨u, hu, rfl⟩ := List.mem_map.mp hv
          obtain ⟨u', hu', rfl⟩ := List.mem_map.mp hw
          have hid_u : (if u._id == jsStr p.assignedUser
              then addToSetPending u fid else u)._id = u._id := by
            split <;> simp
          have hid_u' : (if u'._id == jsStr p.assignedUser
              then addToSetPending u' fid else u')._id = u'._id := by
            split <;> simp
          rw [hid_u, hid_u'] at hvw
          have hmem_u : tid ∈ u.pendingTasks ∨ (tid = fid ∧ u._id = jsStr p.assignedUser) := by
            by_cases hc : (u._id == jsStr p.assignedUser) = true
            · rw [if_pos hc] at htid
              rcases mem_addToSetPending.mp htid with hmem | rfl
              · exact Or.inl hmem
              · exact Or.inr ⟨rfl, beq_iff_eq.mp hc⟩
            · rw [if_neg hc] at htid
              exact Or.inl htid
          have hmem_u' : tid ∈ u'.pendingTasks ∨ (tid = fid ∧ u'._id = jsStr p.assignedUser) := by
            by_cases hc : (u'._id == jsStr p.assignedUser) = true
            · rw [if_pos hc] at hwtid
              rcases mem_addToSetPending.mp hwtid with hmem | rfl
              · exact Or.inl hmem
              · exact Or.inr ⟨rfl, beq_iff_eq.mp hc⟩
            · rw [if_neg hc] at hwtid
              exact Or.inl hwtid
          rcases hmem_u with hmem | ⟨rfl, hufid⟩
          · rcases hmem_u' with hmem' | ⟨rfl, _⟩
            · exact h4 u hu u' hu' hvw tid hmem hmem'
            · exact hfreshPend u hu hmem
          · rcases hmem_u' with hmem' | ⟨_, hufid'⟩
            · exact hfreshPend u' hu' hmem'
            · exact hvw (by rw [hufid, hufid'])
    · -- payload assignedUser is falsy: plain insert of an unassigned task
      rename_i hreq hfalsy
      have hempty : jsStr p.assignedUser = "" := by
        rw [Bool.not_eq_true, Bool.not_eq_false'] at hfalsy
        exact beq_iff_eq.mp hfalsy
      have htask_un : (taskFromPayload fid p).assignedUser = "" := by
        simp only [taskFromPayload]
        exact jsOr_of_empty hempty
      simp only [GoodState, WF, Inv1, Inv4]
      refine ⟨⟨?_, ?_, ?_⟩, ⟨?_, ?_⟩, ?_⟩
      · simpa using hwu
      · simp only [insertTask_tasks, List.map_append, List.map_cons, List.map_nil]
        have : (taskFromPayload fid p)._id = fid := rfl
        rw [this]
        simp [List.nodup_append, hwt, hfresh]
      · intro v hv
        simp only [insertTask_users] at hv
        exact hid0 v hv
      · intro t ht hne'
        simp only [insertTask_tasks, List.mem_append, List.mem_singleton] at ht
        rcases ht with ht | rfl
        · obtain ⟨v, hv, h1, h2⟩ := h1a t ht hne'
          exact ⟨v, by simpa using hv, h1, h2⟩
        · exact absurd htask_un hne'
      · intro v hv tid htid
        simp only [insertTask_users] at hv
        obtain ⟨t, ht, h1, h2⟩ := h1b v hv tid htid
        refine ⟨t, ?_, h1, h2⟩
        simp only [insertTask_tasks, List.mem_append]
        exact Or.inl ht
      · intro v hv w hw hvw tid htid
        simp only [insertTask_users] at hv hw
        exact h4 v hv w hw hvw tid htid

theorem step_taskDelete {s : Store} {tid : String} (hg : GoodState s) :
    GoodState (tasksDelete s tid).2 := by
  obtain ⟨⟨hwu, hwt, hid0⟩, ⟨h1a, h1b⟩, h4⟩ := hg
  simp only [tasksDelete]
  split
  · exact ⟨⟨hwu, hwt, hid0⟩, ⟨h1a, h1b⟩, h4⟩
  · split
    · exact ⟨⟨hwu, hwt, hid0⟩, ⟨h1a, h1b⟩, h4⟩
    · rename_i hvalid _ dt hdt
      obtain ⟨hdtmem, hdtid⟩ := findTaskById_mem hdt
      by_cases hass : (!(dt.assignedUser == "")) = true
      · rw [if_pos hass]
        rw [Bool.not_eq_true', beq_eq_false_iff_ne] at hass
        simp only [GoodState, WF, Inv1, Inv4]
        refine ⟨⟨?_, ?_, ?_⟩, ⟨?_, ?_⟩, ?_⟩
        · simp only [deleteTaskById_users, updateUsersWhere_users]
          rw [map_key_update]
          · exact hwu
          · intro u _
            simp
        · simp only [deleteTaskById_tasks, updateUsersWhere_tasks]
          exact hwt.sublist ((List.filter_sublist _).map _)
        · intro v hv
          simp only [deleteTaskById_users, updateUsersWhere_users] at hv
          obtain ⟨u, hu, rfl⟩ := List.mem_map.mp hv
          by_cases hc : (u._id == dt.assignedUser) = true
          · rw [if_pos hc, pullPending_id]
            exact hid0 u hu
          · rw [if_neg hc]
            exact hid0 u hu
        · intro t ht hne'
          simp only [deleteTaskById_tasks, updateUsersWhere_tasks, List.mem_filter,
            Bool.not_eq_true', beq_eq_false_iff_ne, ne_eq] at ht
          obtain ⟨ht, htne⟩ := ht
          obtain ⟨v, hv, h1, h2⟩ := h1a t ht hne'
          refine ⟨(fun u => if u._id == dt.assignedUser
            then pullPending u tid else u) v, ?_, ?_, ?_⟩
          · simp only [deleteTaskById_users, updateUsersWhere_users]
            exact List.mem_map_of_mem _ hv
          · by_cases hc : (v._id == dt.assignedUser) = true
            · simp only [if_pos hc, pullPending_id]
              exact h1
            · simp only [if_neg hc]
              exact h1
          · by_cases hc : (v._id == dt.assignedUser) = true
            · simp only [if_pos hc]
              exact mem_pullPending.mpr ⟨h2, htne⟩
            · simp only [if_neg hc]
              exact h2
        · intro v hv tid' htid'
          simp only [deleteTaskById_users, updateUsersWhere_users] at hv
          obtain ⟨u, hu, rfl⟩ := List.mem_map.mp hv
          by_cases hc : (u._id == dt.assignedUser) = true
          · rw [if_pos hc] at htid' ⊢
            obtain ⟨hmem, hne2⟩ := mem_pullPending.mp htid'
            obtain ⟨t, ht, h1, h2⟩ := h1b u hu tid' hmem
            refine ⟨t, ?_, h1, ?_⟩
            · simp only [deleteTaskById_tasks, updateUsersWhere_tasks]
              refine List.mem_filter.mpr ⟨ht, ?_⟩
              rw [Bool.not_eq_true', beq_eq_false_iff_ne]
              rw [h1]
              exact hne2
            · rw [pullPending_id]
              exact h2
          · rw [if_neg hc] at htid' ⊢
            obtain ⟨t, ht, h1, h2⟩ := h1b u hu tid' htid'
            refine ⟨t, ?_, h1, h2⟩
            simp only [deleteTaskById_tasks, updateUsersWhere_tasks]
            refine List.mem_filter.mpr ⟨ht, ?_⟩
            rw [Bool.not_eq_true', beq_eq_false_iff_ne]
            intro habs
            rw [beq_iff_eq] at hc
            apply hc
            have : t = dt := key_inj hwt ht hdtmem (by rw [habs, hdtid])
            rw [← h2, this]
        · intro v hv w hw hvw tid' htid' habs
          simp only [deleteTaskById_users, updateUsersWhere_users] at hv hw
          obtain ⟨u, hu, rfl⟩ := List.mem_map.mp hv
          obtain ⟨u', hu', rfl⟩ := List.mem_map.mp hw
          have hid_u : (if u._id == dt.assignedUser
              then pullPending u tid else u)._id = u._id := by
            split <;> simp
          have hid_u' : (if u'._id == dt.assignedUser
              then pullPending u' tid else u')._id = u'._id := by
            split <;> simp
          rw [hid_u, hid_u'] at hvw
          have hmem_u : tid' ∈ u.pendingTasks := by
            by_cases hc : (u._id == dt.assignedUser) = true
            · rw [if_pos hc] at htid'
              exact (mem_pullPending.mp htid').1
            · rw [if_neg hc] at htid'
              exact htid'
          have hmem_u' : tid' ∈ u'.pendingTasks := by
            by_cases hc : (u'._id == dt.assignedUser) = true
            · rw [if_pos hc] at habs
              exact (mem_pullPending.mp habs).1
            · rw [if_neg hc] at habs
              exact habs
          exact h4 u hu u' hu' hvw tid' hmem_u hmem_u'
      · rw [if_neg hass]
        rw [Bool.not_eq_true, Bool.not_eq_false'] at hass
        rw [beq_iff_eq] at hass
        simp only [GoodState, WF, Inv1, Inv4]
        refine ⟨⟨?_, ?_, ?_⟩, ⟨?_, ?_⟩, ?_⟩
        · simpa using hwu
        · simp only [deleteTaskById_tasks]
          exact hwt.sublist ((List.filter_sublist _).map _)
        · intro v hv
          simp only [deleteTaskById_users] at hv
          exact hid0 v hv
        · intro t ht hne'
          simp only [deleteTaskById_tasks, List.mem_filter] at ht
          obtain ⟨v, hv, h1, h2⟩ := h1a t ht.1 hne'
          exact ⟨v, by simpa using hv, h1, h2⟩
        · intro v hv tid' htid'
          simp only [deleteTaskById_users] at hv
          obtain ⟨t, ht, h1, h2⟩ := h1b v hv tid' htid'
          refine ⟨t, ?_, h1, h2⟩
          simp only [deleteTaskById_tasks]
          refine List.mem_filter.mpr ⟨ht, ?_⟩
          rw [Bool.not_eq_true', beq_eq_false_iff_ne]
          intro habs
          have : t = dt := key_inj hwt ht hdtmem (by rw [habs, hdtid])
          apply hid0 v hv
          rw [← h2, this, hass]
        · intro v hv w hw hvw tid' htid'
          simp only [deleteTaskById_users] at hv hw
          exact h4 v hv w hw hvw tid' htid'

theorem jsStr_some (x : String) : jsStr (some x) = x := rfl

theorem jsOr_some_empty (x : String) : jsOr (some x) "" = x := by
  unfold jsOr
  by_cases h : jsStr (some x) = ""
  · rw [if_pos h]
    rw [jsStr_some] at h
    exact h.symm
  · rw [if_neg h]
    rfl

theorem taskFromPayload_id (tid : String) (p : TaskPayload) :
    (taskFromPayload tid p)._id = tid := rfl

/-- Replacing the document of an existing task without changing its
`assignedUser` preserves the good-state invariants. -/
theorem goodState_replaceSameOwner {s : Store} {tid : String} {et repl : Task}
    (hg : GoodState s) (het : findTaskById s tid = some et)
    (hrid : repl._id = tid) (hrass : repl.assignedUser = et.assignedUser) :
    GoodState (updateTasksWhere s (fun t => t._id == tid) (fun _ => repl)) := by
  obtain ⟨⟨hwu, hwt, hid0⟩, ⟨h1a, h1b⟩, h4⟩ := hg
  obtain ⟨hetmem, hetid⟩ := findTaskById_mem het
  simp only [GoodState, WF, Inv1, Inv4]
  refine ⟨⟨?_, ?_, ?_⟩, ⟨?_, ?_⟩, ?_⟩
  · simpa using hwu
  · simp only [updateTasksWhere_tasks]
    rw [map_key_update]
    · exact hwt
    · intro t hc
      rw [beq_iff_eq] at hc
      rw [hrid, hc]
  · intro v hv
    simp only [updateTasksWhere_users] at hv
    exact hid0 v hv
  · intro t ht hne'
    simp only [updateTasksWhere_tasks] at ht
    obtain ⟨t0, ht0, rfl⟩ := List.mem_map.mp ht
    by_cases hc : (t0._id == tid) = true
    · rw [if_pos hc] at hne' ⊢
      rw [hrass] at hne'
      obtain ⟨v, hv, h1, h2⟩ := h1a et hetmem hne'
      refine ⟨v, by simpa using hv, by rw [hrass]; exact h1, ?_⟩
      rw [hrid, ← hetid]
      exact h2
    · rw [if_neg hc] at hne' ⊢
      obtain ⟨v, hv, h1, h2⟩ := h1a t0 ht0 hne'
      exact ⟨v, by simpa using hv, h1, h2⟩
  · intro v hv tid' htid'
    simp only [updateTasksWhere_users] at hv
    obtain ⟨t, ht, h1, h2⟩ := h1b v hv tid' htid'
    by_cases hc : (t._id == tid) = true
    · refine ⟨repl, ?_, ?_, ?_⟩
      · simp only [updateTasksWhere_tasks]
        have := List.mem_map_of_mem (fun t => if t._id == tid then repl else t) ht
        simpa only [if_pos hc] using this
      · rw [hrid, ← beq_iff_eq.mp hc]
        exact h1
      · have : t = et := key_inj hwt ht hetmem (by rw [beq_iff_eq.mp hc, hetid])
        rw [hrass, ← this, h2]
    · refine ⟨t, ?_, h1, h2⟩
      simp only [updateTasksWhere_tasks]
      have := List.mem_map_of_mem (fun t => if t._id == tid then repl else t) ht
      simpa only [if_neg hc] using this
  · intro v hv w hw hvw tid' htid'
    simp only [updateTasksWhere_users] at hv hw
    exact h4 v hv w hw hvw tid' htid'

/-- The pull stage of PUT /tasks/:id and DELETE /tasks/:id preserves ids. -/
theorem pull_stage_id (old tid : String) (u : User) :
    (if u._id == old then pullPending u tid else u)._id = u._id := by
  by_cases hc : (u._id == old) = true
  · rw [if_pos hc, pullPending_id]
  · rw [if_neg hc]

/-- Membership in pendingTasks after the pull stage. -/
theorem pull_stage_pend (old tid : String) (u : User) (x : String) :
    x ∈ (if u._id == old then pullPending u tid else u).pendingTasks ↔
    x ∈ u.pendingTasks ∧ ¬(x = tid ∧ u._id = old) := by
  by_cases hc : (u._id == old) = true
  · have hco : u._id = old := beq_iff_eq.mp hc
    rw [if_pos hc, mem_pullPending]
    constructor
    · rintro ⟨hx, hne⟩
      exact ⟨hx, fun h => hne h.1⟩
    · rintro ⟨hx, hn⟩
      exact ⟨hx, fun hxt => hn ⟨hxt, hco⟩⟩
  · have hco : ¬ u._id = old := fun h => hc (beq_iff_eq.mpr h)
    rw [if_neg hc]
    constructor
    · intro hx
      exact ⟨hx, fun h => hco h.2⟩
    · exact And.left

/-- Replacing an existing task by an unassigned document, over a store whose
user list went through a key-preserving stage `P` that removed the task id
from the pendingTasks of the old owner (and changed nothing else), preserves
the good-state invariants. `P` covers both shapes of the pull stage of
PUT /tasks/:id: the dollar-pull one and the identity one. -/
theorem goodState_unassignReplace {s : Store} {tid : String} {et repl : Task}
    (P : User → User)
    (hg : GoodState s) (het : findTaskById s tid = some et)
    (hPid : ∀ u, (P u)._id = u._id)
    (hPpend : ∀ u ∈ s.users, ∀ x : String, x ∈ (P u).pendingTasks ↔
      x ∈ u.pendingTasks ∧ ¬(x = tid ∧ u._id = et.assignedUser))
    (hrid : repl._id = tid) (hrass : repl.assignedUser = "") :
    GoodState { users := s.users.map P,
                tasks := s.tasks.map (fun t => if t._id == tid then repl else t) } := by
  obtain ⟨⟨hwu, hwt, hid0⟩, ⟨h1a, h1b⟩, h4⟩ := hg
  obtain ⟨hetmem, hetid⟩ := findTaskById_mem het
  simp only [GoodState, WF, Inv1, Inv4]
  refine ⟨⟨?_, ?_, ?_⟩, ⟨?_, ?_⟩, ?_⟩
  · rw [List.map_map]
    have : (s.users.map (P · |>._id)) = s.users.map (fun u => u._id) :=
      List.map_congr_left (fun u _ => hPid u)
    rw [show ((fun u => u._id) ∘ P) = (P · |>._id) from rfl, this]
    exact hwu
  · rw [map_key_update]
    · exact hwt
    · intro t hc
      rw [beq_iff_eq] at hc
      rw [hrid, hc]
  · intro v hv
    obtain ⟨u, hu, rfl⟩ := List.mem_map.mp hv
    rw [hPid]
    exact hid0 u hu
  · intro t ht hne'
    obtain ⟨t0, ht0, rfl⟩ := List.mem_map.mp ht
    by_cases hc : (t0._id == tid) = true
    · rw [if_pos hc] at hne'
      exact absurd hrass hne'
    · rw [if_neg hc] at hne' ⊢
      obtain ⟨v, hv, h1, h2⟩ := h1a t0 ht0 hne'
      refine ⟨P v, List.mem_map_of_mem P hv, by rw [hPid]; exact h1, ?_⟩
      rw [hPpend v hv]
      refine ⟨h2, ?_⟩
      rintro ⟨habs, -⟩
      rw [beq_iff_eq] at hc
      exact hc habs
  · intro v hv tid' htid'
    obtain ⟨u, hu, rfl⟩ := List.mem_map.mp hv
    rw [hPpend u hu] at htid'
    obtain ⟨hmem, hnot⟩ := htid'
    obtain ⟨t, ht, h1, h2⟩ := h1b u hu tid' hmem
    have htne : t._id ≠ tid := by
      intro habs
      have : t = et := key_inj hwt ht hetmem (by rw [habs, hetid])
      apply hnot
      refine ⟨by rw [← h1, habs], ?_⟩
      rw [← h2, this]
    refine ⟨t, ?_, h1, by rw [hPid]; exact h2⟩
    have := List.mem_map_of_mem (fun t => if t._id == tid then repl else t) ht
    simpa only [if_neg (by rw [beq_iff_eq]; exact htne : ¬((t._id == tid) = true))]
      using this
  · intro v hv w hw hvw tid' htid' habs
    obtain ⟨u, hu, rfl⟩ := List.mem_map.mp hv
    obtain ⟨u', hu', rfl⟩ := List.mem_map.mp hw
    rw [hPid, hPid] at hvw
    rw [hPpend u hu] at htid'
    rw [hPpend u' hu'] at habs
    exact h4 u hu u' hu' hvw tid' htid'.1 habs.1

/-- Replacing an existing task by a document assigned to `uid`, over a store
whose user list went through the key-preserving pull stage `P` and then the
dollar-addToSet stage for `uid`, preserves the good-state invariants. -/
theorem goodState_assignReplace {s : Store} {tid uid : String} {et repl : Task}
    (P : User → User)
    (hg : GoodState s) (het : findTaskById s tid = some et)
    (hPid : ∀ u, (P u)._id = u._id)
    (hPpend : ∀ u ∈ s.users, ∀ x : String, x ∈ (P u).pendingTasks ↔
      x ∈ u.pendingTasks ∧ ¬(x = tid ∧ u._id = et.assignedUser))
    (hexists : ∃ u0 ∈ s.users, u0._id = uid)
    (hrid : repl._id = tid) (hrass : repl.assignedUser = uid) :
    GoodState { users := (s.users.map P).map
                  (fun u => if u._id == uid then addToSetPending u tid else u),
                tasks := s.tasks.map (fun t => if t._id == tid then repl else t) } := by
  obtain ⟨⟨hwu, hwt, hid0⟩, ⟨h1a, h1b⟩, h4⟩ := hg
  obtain ⟨hetmem, hetid⟩ := findTaskById_mem het
  obtain ⟨u0, hu0, hu0id⟩ := hexists
  set A : User → User := fun u => if u._id == uid then addToSetPending u tid else u
    with hA
  -- membership characterization for the composed user stages
  have husers : ∀ v, v ∈ (s.users.map P).map A ↔
      ∃ u ∈ s.users, v = A (P u) := by
    intro v
    rw [List.map_map, List.mem_map]
    constructor
    · rintro ⟨u, hu, rfl⟩
      exact ⟨u, hu, rfl⟩
    · rintro ⟨u, hu, rfl⟩
      exact ⟨u, hu, rfl⟩
  have hAid : ∀ u, (A (P u))._id = u._id := by
    intro u
    simp only [hA]
    by_cases hc : ((P u)._id == uid) = true
    · rw [if_pos hc, addToSetPending_id, hPid]
    · rw [if_neg hc, hPid]
  have hApend : ∀ u ∈ s.users, ∀ x : String,
      x ∈ (A (P u)).pendingTasks ↔
      ((x ∈ u.pendingTasks ∧ ¬(x = tid ∧ u._id = et.assignedUser))
        ∨ (u._id = uid ∧ x = tid)) := by
    intro u hu x
    simp only [hA]
    by_cases hc : ((P u)._id == uid) = true
    · rw [if_pos hc, mem_addToSetPending, hPpend u hu]
      rw [hPid, beq_iff_eq] at hc
      constructor
      · rintro (hx | rfl)
        · exact Or.inl hx
        · exact Or.inr ⟨hc, rfl⟩
      · rintro (hx | ⟨-, rfl⟩)
        · exact Or.inl hx
        · exact Or.inr rfl
    · rw [if_neg hc, hPpend u hu]
      rw [hPid, beq_iff_eq] at hc
      constructor
      · exact Or.inl
      · rintro (hx | ⟨habs, -⟩)
        · exact hx
        · exact absurd habs hc
  simp only [GoodState, WF, Inv1, Inv4]
  refine ⟨⟨?_, ?_, ?_⟩, ⟨?_, ?_⟩, ?_⟩
  · rw [hA, map_key_update ((s.users.map P)) (fun u => u._id)
      (fun u => u._id == uid) (fun u => addToSetPending u tid)
      (fun u _ => addToSetPending_id u tid)]
    rw [List.map_map]
    have : (s.users.map ((fun u => u._id) ∘ P)) = s.users.map (fun u => u._id) :=
      List.map_congr_left (fun u _ => hPid u)
    rw [this]
    exact hwu
  · rw [map_key_update]
    · exact hwt
    · intro t hc
      rw [beq_iff_eq] at hc
      rw [hrid, hc]
  · intro v hv
    obtain ⟨u, hu, rfl⟩ := (husers v).mp hv
    rw [hAid]
    exact hid0 u hu
  · intro t ht hne'
    obtain ⟨t0, ht0, rfl⟩ := List.mem_map.mp ht
    by_cases hc : (t0._id == tid) = true
    · -- the replacement document, assigned to uid
      rw [if_pos hc]
      refine ⟨A (P u0),
        (husers _).mpr ⟨u0, hu0, rfl⟩, by rw [hAid, hu0id, hrass], ?_⟩
      rw [hrid]
      rw [hApend u0 hu0 tid]
      exact Or.inr ⟨hu0id, rfl⟩
    · rw [if_neg hc] at hne' ⊢
      obtain ⟨v, hv, h1, h2⟩ := h1a t0 ht0 hne'
      refine ⟨A (P v),
        (husers _).mpr ⟨v, hv, rfl⟩, by rw [hAid]; exact h1, ?_⟩
      rw [hApend v hv]
      refine Or.inl ⟨h2, ?_⟩
      rintro ⟨habs, -⟩
      rw [beq_iff_eq] at hc
      exact hc habs
  · intro v hv tid' htid'
    obtain ⟨u, hu, rfl⟩ := (husers v).mp hv
    rw [hApend u hu] at htid'
    rcases htid' with ⟨hmem, hnot⟩ | ⟨huuid, heq⟩
    · obtain ⟨t, ht, h1, h2⟩ := h1b u hu tid' hmem
      have htne : t._id ≠ tid := by
        intro habs
        have : t = et := key_inj hwt ht hetmem (by rw [habs, hetid])
        apply hnot
        refine ⟨by rw [← h1, habs], ?_⟩
        rw [← h2, this]
      refine ⟨t, ?_, h1, by rw [hAid]; exact h2⟩
      have := List.mem_map_of_mem (fun t => if t._id == tid then repl else t) ht
      simpa only [if_neg (by rw [beq_iff_eq]; exact htne : ¬((t._id == tid) = true))]
        using this
    · refine ⟨repl, ?_, by rw [hrid, heq], by rw [hAid, hrass, huuid]⟩
      have := List.mem_map_of_mem (fun t => if t._id == tid then repl else t) hetmem
      simpa only [if_pos (by rw [beq_iff_eq]; exact hetid : (et._id == tid) = true)]
        using this
  · intro v hv w hw hvw tid' htid' habs
    obtain ⟨u, hu, rfl⟩ := (husers v).mp hv
    obtain ⟨u', hu', rfl⟩ := (husers w).mp hw
    rw [hAid, hAid] at hvw
    rw [hApend u hu] at htid'
    rw [hApend u' hu'] at habs
    rcases htid' with ⟨hmem, hnot⟩ | ⟨huuid, heq1⟩
    · rcases habs with ⟨hmem', -⟩ | ⟨huuid', heq2⟩
      · exact h4 u hu u' hu' hvw tid' hmem hmem'
      · obtain ⟨t, ht, h1, h2⟩ := h1b u hu tid' hmem
        have : t = et := key_inj hwt ht hetmem (by rw [h1, heq2, hetid])
        exact hnot ⟨heq2, by rw [← h2, this]⟩
    · rcases habs with ⟨hmem', hnot'⟩ | ⟨huuid', -⟩
      · obtain ⟨t, ht, h1, h2⟩ := h1b u' hu' tid' hmem'
        have : t = et := key_inj hwt ht hetmem (by rw [h1, heq1, hetid])
        exact hnot' ⟨heq1, by rw [← h2, this]⟩
      · exact hvw (by rw [huuid, huuid'])

theorem step_taskPut {s s' : Store} {tid : String} {p : TaskPayload} {st : Nat}
    (hg : GoodState s) (h : tasksPut s tid p = (st, s')) (hok : isOk st = true) :
    GoodState s' := by
  obtain ⟨⟨hwu, hwt, hid0⟩, ⟨h1a, h1b⟩, h4⟩ := hg
  simp only [tasksPut] at h
  split at h
  · cases h
    simp [isOk] at hok
  · split at h
    · cases h
      simp [isOk] at hok
    · rename_i hvalid _ et het
      obtain ⟨hetmem, hetid⟩ := findTaskById_mem het
      split at h
      · -- assignedUser unchanged: plain replacement
        rename_i hsame
        cases h
        rw [beq_iff_eq] at hsame
        refine goodState_replaceSameOwner ⟨⟨hwu, hwt, hid0⟩, ⟨h1a, h1b⟩, h4⟩ het rfl ?_
        simp only [taskFromPayload]
        rw [hsame, jsOr_some_empty]
      · -- assignedUser changed
        rename_i hchanged
        split at h
        · -- new value truthy: existence check on the already-pulled store
          split at h
          · cases h
            simp [isOk] at hok
          · rename_i hnew _ u1 hu1
            cases h
            rw [Bool.not_eq_true', beq_eq_false_iff_ne] at hnew
            have hreplass : (taskFromPayload tid p).assignedUser
                = jsStr p.assignedUser := by
              simp only [taskFromPayload]
              exact jsOr_of_ne hnew
            by_cases hpull : (!(et.assignedUser == "")) = true
            · rw [if_pos hpull] at hu1 ⊢
              obtain ⟨hu1mem, hu1id⟩ := findUserById_mem hu1
              simp only [updateUsersWhere_users] at hu1mem
              obtain ⟨u0, hu0, rfl⟩ := List.mem_map.mp hu1mem
              have hu0id : u0._id = jsStr p.assignedUser := by
                rw [← hu1id, pull_stage_id]
              exact goodState_assignReplace
                (fun u => if u._id == et.assignedUser then pullPending u tid else u)
                ⟨⟨hwu, hwt, hid0⟩, ⟨h1a, h1b⟩, h4⟩ het
                (pull_stage_id et.assignedUser tid)
                (fun u _ x => pull_stage_pend et.assignedUser tid u x)
                ⟨u0, hu0, hu0id⟩ rfl hreplass
            · rw [if_neg hpull] at hu1 ⊢
              rw [Bool.not_eq_true, Bool.not_eq_false'] at hpull
              have hetun : et.assignedUser = "" := beq_iff_eq.mp hpull
              obtain ⟨hu1mem, hu1id⟩ := findUserById_mem hu1
              have hres := goodState_assignReplace (fun u => u)
                ⟨⟨hwu, hwt, hid0⟩, ⟨h1a, h1b⟩, h4⟩ het (fun _ => rfl)
                (fun u hu x => by
                  constructor
                  · intro hx
                    refine ⟨hx, ?_⟩
                    rintro ⟨-, habs⟩
                    exact hid0 u hu (by rw [habs, hetun])
                  · exact And.left)
                ⟨u1, hu1mem, hu1id⟩ rfl hreplass
              rw [List.map_id'] at hres
              exact hres
        · -- new value falsy: the replacement document is unassigned
          rename_i hnewfalsy
          cases h
          rw [Bool.not_eq_true, Bool.not_eq_false'] at hnewfalsy
          have hreplass : (taskFromPayload tid p).assignedUser = "" := by
            simp only [taskFromPayload]
            exact jsOr_of_empty (beq_iff_eq.mp hnewfalsy)
          by_cases hpull : (!(et.assignedUser == "")) = true
          · rw [if_pos hpull]
            exact goodState_unassignReplace
              (fun u => if u._id == et.assignedUser then pullPending u tid else u)
              ⟨⟨hwu, hwt, hid0⟩, ⟨h1a, h1b⟩, h4⟩ het
              (pull_stage_id et.assignedUser tid)
              (fun u _ x => pull_stage_pend et.assignedUser tid u x)
              rfl hreplass
          · rw [if_neg hpull]
            rw [Bool.not_eq_true, Bool.not_eq_false'] at hpull
            have hetun : et.assignedUser = "" := beq_iff_eq.mp hpull
            have hres := goodState_unassignReplace (fun u => u)
              ⟨⟨hwu, hwt, hid0⟩, ⟨h1a, h1b⟩, h4⟩ het (fun _ => rfl)
              (fun u hu x => by
                constructor
                · intro hx
                  refine ⟨hx, ?_⟩
                  rintro ⟨-, habs⟩
                  exact hid0 u hu (by rw [habs, hetun])
                · exact And.left)
              rfl hreplass
            rw [List.map_id'] at hres
            exact hres

/-- The two sequential updateMany calls of PUT /users/:id compose into a
single three-way case split on the old/new pendingTasks sets. -/
theorem cascade_map_eq (l : List MP3.Task) (uid nm : String)
    (old npend : List String) :
    (l.map (fun t => if decide (t._id ∈ old) && !(decide (t._id ∈ npend))
        then unassignTask t else t)).map
      (fun t => if decide (t._id ∈ npend) && !(decide (t._id ∈ old))
        then { t with assignedUser := uid, assignedUserName := nm } else t)
    = l.map (fun t =>
        if t._id ∈ old ∧ t._id ∉ npend then unassignTask t
        else if t._id ∈ npend ∧ t._id ∉ old
          then { t with assignedUser := uid, assignedUserName := nm } else t) := by
  rw [List.map_map]
  apply List.map_congr_left
  intro t _
  by_cases h1m : t._id ∈ old <;> by_cases h2m : t._id ∈ npend <;>
    simp [Function.comp, h1m, h2m, unassignTask]

theorem step_userPut {s s' : Store} {uid : String} {p : UserPayload} {st : Nat}
    (hg : GoodState s) (h : usersPut s uid p = (st, s')) (hok : isOk st = true)
    (hadm : ∀ eu, findUserById s uid = some eu → ∀ x ∈ p.pendingTasks.getD [],
      x ∈ eu.pendingTasks ∨ ∃ t ∈ s.tasks, t._id = x ∧ t.assignedUser = "") :
    GoodState s' := by
  obtain ⟨⟨hwu, hwt, hid0⟩, ⟨h1a, h1b⟩, h4⟩ := hg
  simp only [usersPut] at h
  split at h
  · cases h
    simp [isOk] at hok
  · rename_i hvalid
    split at h
    · rename_i nm em hpn hpe
      split at h
      · cases h
        simp [isOk] at hok
      · rename_i eu heu
        cases h
        have hvalid' : isValidObjectId uid = true := by
          rw [Bool.not_eq_true, Bool.not_eq_false'] at hvalid
          exact hvalid
        obtain ⟨heumem, heuid⟩ := findUserById_mem heu
        have hadm' := hadm eu heu
        show GoodState
          { users := s.users.map (fun u => if u._id == uid
              then { _id := uid, name := nm, email := em,
                     pendingTasks := p.pendingTasks.getD [] } else u),
            tasks := (s.tasks.map (fun t =>
                if decide (t._id ∈ eu.pendingTasks)
                    && !(decide (t._id ∈ p.pendingTasks.getD []))
                  then unassignTask t else t)).map (fun t =>
                if decide (t._id ∈ p.pendingTasks.getD [])
                    && !(decide (t._id ∈ eu.pendingTasks))
                  then { t with assignedUser := uid, assignedUserName := nm }
                  else t) }
        rw [cascade_map_eq]
        set newU : User :=
          { _id := uid, name := nm, email := em,
            pendingTasks := p.pendingTasks.getD [] } with hnewU
        set U : User → User := fun u => if u._id == uid then newU else u with hU
        set G : MP3.Task → MP3.Task := fun t =>
          if t._id ∈ eu.pendingTasks ∧ t._id ∉ p.pendingTasks.getD []
            then unassignTask t
          else if t._id ∈ p.pendingTasks.getD [] ∧ t._id ∉ eu.pendingTasks
            then { t with assignedUser := uid, assignedUserName := nm } else t
          with hG
        have hUid : ∀ u : User, (U u)._id = u._id := by
          intro u
          simp only [hU]
          by_cases hc : (u._id == uid) = true
          · rw [if_pos hc, hnewU]
            exact (beq_iff_eq.mp hc).symm
          · rw [if_neg hc]
        have hUeq : ∀ u : User, u._id = uid → U u = newU := by
          intro u hueq
          simp only [hU]
          rw [if_pos (beq_iff_eq.mpr hueq)]
        have hUne : ∀ u : User, u._id ≠ uid → U u = u := by
          intro u hune
          simp only [hU]
          rw [if_neg (fun hc => hune (beq_iff_eq.mp hc))]
        have hGid : ∀ t : MP3.Task, (G t)._id = t._id := by
          intro t
          simp only [hG]
          split_ifs <;> rfl
        have hGun : ∀ t : MP3.Task, t._id ∈ eu.pendingTasks →
            t._id ∉ p.pendingTasks.getD [] → G t = unassignTask t := by
          intro t h1m h2m
          simp only [hG]
          rw [if_pos ⟨h1m, h2m⟩]
        have hGas : ∀ t : MP3.Task, t._id ∈ p.pendingTasks.getD [] →
            t._id ∉ eu.pendingTasks →
            G t = { t with assignedUser := uid, assignedUserName := nm } := by
          intro t h1m h2m
          simp only [hG]
          rw [if_neg (fun hc => h2m hc.1), if_pos ⟨h1m, h2m⟩]
        have hGelse : ∀ t : MP3.Task,
            (t._id ∈ eu.pendingTasks → t._id ∈ p.pendingTasks.getD []) →
            (t._id ∈ p.pendingTasks.getD [] → t._id ∈ eu.pendingTasks) →
            G t = t := by
          intro t himp1 himp2
          simp only [hG]
          rw [if_neg (fun hc => hc.2 (himp1 hc.1)),
            if_neg (fun hc => hc.2 (himp2 hc.1))]
        simp only [GoodState, WF, Inv1, Inv4]
        refine ⟨⟨?_, ?_, ?_⟩, ⟨?_, ?_⟩, ?_⟩
        · rw [List.map_map]
          have : s.users.map ((fun u => u._id) ∘ U) = s.users.map (fun u => u._id) :=
            List.map_congr_left (fun u _ => hUid u)
          rw [this]
          exact hwu
        · rw [List.map_map]
          have : s.tasks.map ((fun t => t._id) ∘ G) = s.tasks.map (fun t => t._id) :=
            List.map_congr_left (fun t _ => hGid t)
          rw [this]
          exact hwt
        · intro v hv
          obtain ⟨u, hu, rfl⟩ := List.mem_map.mp hv
          rw [hUid]
          exact hid0 u hu
        · intro t ht hne'
          obtain ⟨t0, ht0, rfl⟩ := List.mem_map.mp ht
          by_cases h1m : t0._id ∈ eu.pendingTasks <;>
            by_cases h2m : t0._id ∈ p.pendingTasks.getD []
          · rw [hGelse t0 (fun _ => h2m) (fun _ => h1m)] at hne' ⊢
            obtain ⟨v, hv, hv1, hv2⟩ := h1a t0 ht0 hne'
            by_cases hveq : v._id = uid
            · refine ⟨U v, List.mem_map_of_mem U hv, ?_, ?_⟩
              · rw [hUid]
                exact hv1
              · rw [hUeq v hveq, hnewU]
                exact h2m
            · refine ⟨U v, List.mem_map_of_mem U hv, ?_, ?_⟩
              · rw [hUid]
                exact hv1
              · rw [hUne v hveq]
                exact hv2
          · rw [hGun t0 h1m h2m] at hne'
            exact absurd rfl hne'
          · rw [hGas t0 h2m h1m] at hne' ⊢
            refine ⟨U eu, List.mem_map_of_mem U heumem, ?_, ?_⟩
            · rw [hUid, heuid]
            · rw [hUeq eu heuid, hnewU]
              exact h2m
          · rw [hGelse t0 (fun hm => absurd hm h1m) (fun hm => absurd hm h2m)]
              at hne' ⊢
            obtain ⟨v, hv, hv1, hv2⟩ := h1a t0 ht0 hne'
            by_cases hveq : v._id = uid
            · have hveu : v = eu := key_inj hwu hv heumem (by rw [hveq, heuid])
              rw [hveu] at hv2
              exact absurd hv2 h1m
            · exact ⟨U v, List.mem_map_of_mem U hv,
                by rw [hUid]; exact hv1, by rw [hUne v hveq]; exact hv2⟩
        · intro v hv tid' htid'
          obtain ⟨u, hu, rfl⟩ := List.mem_map.mp hv
          by_cases hueq : u._id = uid
          · rw [hUeq u hueq, hnewU] at htid'
            have htid2 : tid' ∈ p.pendingTasks.getD [] := htid'
            by_cases hold' : tid' ∈ eu.pendingTasks
            · obtain ⟨t, ht, h1, h2⟩ := h1b eu heumem tid' hold'
              have hGt : G t = t := hGelse t
                (fun _ => by rw [h1]; exact htid2) (fun _ => by rw [h1]; exact hold')
              refine ⟨G t, List.mem_map_of_mem G ht, ?_, ?_⟩
              · rw [hGt]
                exact h1
              · rw [hGt, hUid, hueq, ← heuid]
                exact h2
            · rcases hadm' tid' htid2 with hmem | ⟨t1, ht1, ht1id, ht1un⟩
              · exact absurd hmem hold'
              · have hGt1 :
                    G t1 = { t1 with assignedUser := uid, assignedUserName := nm } :=
                  hGas t1 (by rw [ht1id]; exact htid2) (by rw [ht1id]; exact hold')
                refine ⟨G t1, List.mem_map_of_mem G ht1, ?_, ?_⟩
                · rw [hGt1]
                  exact ht1id
                · rw [hGt1, hUid, hueq]
          · rw [hUne u hueq] at htid'
            obtain ⟨t, ht, h1, h2⟩ := h1b u hu tid' htid'
            have hnotold : t._id ∉ eu.pendingTasks := by
              intro habs
              exact (h4 eu heumem u hu
                  (by rw [heuid]; exact fun hx => hueq hx.symm) t._id habs)
                (by rw [h1]; exact htid')
            have hnotnew : t._id ∉ p.pendingTasks.getD [] := by
              intro habs
              rcases hadm' t._id habs with hmem | ⟨t1, ht1, ht1id, ht1un⟩
              · exact hnotold hmem
              · have ht1t : t1 = t := key_inj hwt ht1 ht ht1id
                apply hid0 u hu
                rw [← h2, ← ht1t, ht1un]
            have hGt : G t = t := hGelse t
              (fun hm => absurd hm hnotold) (fun hm => absurd hm hnotnew)
            refine ⟨G t, List.mem_map_of_mem G ht, ?_, ?_⟩
            · rw [hGt]
              exact h1
            · rw [hGt, hUid]
              exact h2
        · intro v hv w hw hvw tid' htid' habs
          obtain ⟨u, hu, rfl⟩ := List.mem_map.mp hv
          obtain ⟨u', hu', rfl⟩ := List.mem_map.mp hw
          rw [hUid, hUid] at hvw
          have hchar : ∀ z : User, z ∈ s.users → ∀ x : String,
              x ∈ (U z).pendingTasks →
              (z._id = uid ∧ x ∈ p.pendingTasks.getD [])
                ∨ (z._id ≠ uid ∧ x ∈ z.pendingTasks) := by
            intro z hz x hx
            by_cases hzeq : z._id = uid
            · rw [hUeq z hzeq, hnewU] at hx
              exact Or.inl ⟨hzeq, hx⟩
            · rw [hUne z hzeq] at hx
              exact Or.inr ⟨hzeq, hx⟩
          rcases hchar u hu tid' htid' with ⟨hueq, hmem⟩ | ⟨hune, hmem⟩
          · rcases hchar u' hu' tid' habs with ⟨hueq', hmem'⟩ | ⟨hune', hmem'⟩
            · exact hvw (by rw [hueq, hueq'])
            · by_cases hold' : tid' ∈ eu.pendingTasks
              · exact h4 eu heumem u' hu'
                  (by rw [heuid]; exact fun hx => hune' hx.symm) tid' hold' hmem'
              · rcases hadm' tid' hmem with hmem2 | ⟨t1, ht1, ht1id, ht1un⟩
                · exact absurd hmem2 hold'
                · obtain ⟨t, ht, h1, h2⟩ := h1b u' hu' tid' hmem'
                  have ht1t : t1 = t := key_inj hwt ht1 ht (by rw [ht1id, h1])
                  apply hid0 u' hu'
                  rw [← h2, ← ht1t, ht1un]
          · rcases hchar u' hu' tid' habs with ⟨hueq', hmem'⟩ | ⟨hune', hmem'⟩
            · by_cases hold' : tid' ∈ eu.pendingTasks
              · exact h4 eu heumem u hu
                  (by rw [heuid]; exact fun hx => hune hx.symm) tid' hold' hmem
              · rcases hadm' tid' hmem' with hmem2 | ⟨t1, ht1, ht1id, ht1un⟩
                · exact absurd hmem2 hold'
                · obtain ⟨t, ht, h1, h2⟩ := h1b u hu tid' hmem
                  have ht1t : t1 = t := key_inj hwt ht1 ht (by rw [ht1id, h1])
                  apply hid0 u hu
                  rw [← h2, ← ht1t, ht1un]
            · exact h4 u hu u' hu' hvw tid' hmem hmem'  
    · cases h
      simp [isOk] at hok

/-- One admissible successful operation preserves the good state. -/
theorem step_admissible {s : Store} {op : Op}
    (hg : GoodState s) (hadm : admissible s op = true)
    (hok : isOk (applyOp s op).1 = true) :
    GoodState (applyOp s op).2 := by
  cases op with
  | userCreate fid p =>
    simp only [admissible, Bool.and_eq_true, Bool.not_eq_true',
      beq_eq_false_iff_ne, decide_eq_false_iff_not] at hadm
    obtain ⟨⟨hne, hfresh⟩, hpend⟩ := hadm
    exact step_userCreate hg hfresh hne (List.isEmpty_iff.mp hpend)
  | userPut uid p =>
    apply step_userPut hg rfl hok
    intro eu heq x hx
    simp only [admissible, List.all_eq_true, Bool.or_eq_true,
      decide_eq_true_eq] at hadm
    have := hadm x hx
    rw [heq] at this
    exact this
  | userDelete uid => exact step_userDelete hg
  | taskCreate fid p =>
    simp only [admissible, Bool.not_eq_true', decide_eq_false_iff_not] at hadm
    exact step_taskCreate hg hadm
  | taskPut tid p => exact step_taskPut hg rfl hok
  | taskDelete tid => exact step_taskDelete hg

/-- Good states are preserved along any admissible successful run. -/
theorem runAdmissible_goodState {ops : List Op} :
    ∀ {s s' : Store}, GoodState s → runAdmissible s ops = some s' → GoodState s' := by
  induction ops with
  | nil =>
    intro s s' hg h
    simp only [runAdmissible] at h
    cases h
    exact hg
  | cons op rest ih =>
    intro s s' hg h
    simp only [runAdmissible] at h
    split at h
    · rename_i hadm
      split at h
      · rename_i hok
        exact ih (step_admissible hg hadm hok) h
      · cases h
    · cases h

/-! Claim C1. -/

/-- Operations exhibiting that POST /users stores a payload-supplied
pendingTasks list verbatim, without any task-side synchronization. -/
def c1CexOps : List Op :=
  [Op.taskCreate "cccccccccccccccccccccccc"
    { name := some "t", description := none, deadline := some "d",
      completed := none, assignedUser := none, assignedUserName := none },
   Op.userCreate "aaaaaaaaaaaaaaaaaaaaaaaa"
    { name := some "A", email := some "a@x",
      pendingTasks := some ["cccccccccccccccccccccccc"] }]

/-- The store reached by `c1CexOps`: the user lists the task, but the task is
still unassigned. -/
def c1CexStore : Store :=
  { users := [{ _id := "aaaaaaaaaaaaaaaaaaaaaaaa", name := "A", email := "a@x",
                pendingTasks := ["cccccccccccccccccccccccc"] }],
    tasks := [{ _id := "cccccccccccccccccccccccc", name := "t",
                description := "", deadline := "d", completed := "false",
                assignedUser := "", assignedUserName := "unassigned" }] }

/-- Claim C1, counterexample: a sequence of two successful operations (POST /tasks
creating an unassigned task, then POST /users whose payload lists that task
in pendingTasks) ends in a store where the id in the pendingTasks of the new
user is the id of a task whose assignedUser is empty, not that user: the
claimed bidirectional invariant I1 is violated after a successful sequence. -/
theorem inv1_fails_on_user_create_payload :
    runOps emptyStore c1CexOps = some c1CexStore ∧ ¬ Inv1 c1CexStore := by
  constructor
  · decide
  · decide

/-- Claim C1, amended: invariant I1 (both directions) holds after every sequence
of operations in which each request completes successfully, the ids of the
create operations are genuinely fresh (nonempty for users), user-create
payloads carry no pendingTasks, and every task id newly introduced by a
user-replacement payload names an existing unassigned task. -/
theorem inv1_after_admissible_run (ops : List Op) (s' : Store)
    (h : runAdmissible emptyStore ops = some s') : Inv1 s' :=
  (runAdmissible_goodState (by decide) h).2.1

/-- Operations for the witnesses of the amended invariant claims. -/
def admissibleRunOps : List Op :=
  [Op.userCreate "aaaaaaaaaaaaaaaaaaaaaaaa"
    { name := some "A", email := some "a@x", pendingTasks := none },
   Op.taskCreate "cccccccccccccccccccccccc"
    { name := some "t", description := none, deadline := some "d",
      completed := none, assignedUser := some "aaaaaaaaaaaaaaaaaaaaaaaa",
      assignedUserName := some "A" }]

/-- The store reached by `admissibleRunOps`. -/
def admissibleRunStore : Store :=
  { users := [{ _id := "aaaaaaaaaaaaaaaaaaaaaaaa", name := "A", email := "a@x",
                pendingTasks := ["cccccccccccccccccccccccc"] }],
    tasks := [{ _id := "cccccccccccccccccccccccc", name := "t",
                description := "", deadline := "d", completed := "false",
                assignedUser := "aaaaaaaaaaaaaaaaaaaaaaaa",
                assignedUserName := "A" }] }

/-- Witness for the amended C1 at a concrete admissible run. -/
theorem inv1_after_admissible_run_witness :
    runAdmissible emptyStore admissibleRunOps = some admissibleRunStore
      ∧ Inv1 admissibleRunStore :=
  ⟨by decide, inv1_after_admissible_run admissibleRunOps admissibleRunStore (by decide)⟩

/-! Claim C2. -/

/-- Operations exhibiting duplicate ownership: two POST /users requests both
listing the same (unassigned) task in their pendingTasks payloads. -/
def c2CexOps : List Op :=
  [Op.taskCreate "cccccccccccccccccccccccc"
    { name := some "t", description := none, deadline := some "d",
      completed := none, assignedUser := none, assignedUserName := none },
   Op.userCreate "aaaaaaaaaaaaaaaaaaaaaaaa"
    { name := some "A", email := some "a@x",
      pendingTasks := some ["cccccccccccccccccccccccc"] },
   Op.userCreate "bbbbbbbbbbbbbbbbbbbbbbbb"
    { name := some "B", email := some "b@x",
      pendingTasks := some ["cccccccccccccccccccccccc"] }]

/-- The store reached by `c2CexOps`: the same task id sits in the
pendingTasks of two distinct users. -/
def c2CexStore : Store :=
  { users := [{ _id := "aaaaaaaaaaaaaaaaaaaaaaaa", name := "A", email := "a@x",
                pendingTasks := ["cccccccccccccccccccccccc"] },
              { _id := "bbbbbbbbbbbbbbbbbbbbbbbb", name := "B", email := "b@x",
                pendingTasks := ["cccccccccccccccccccccccc"] }],
    tasks := [{ _id := "cccccccccccccccccccccccc", name := "t",
                description := "", deadline := "d", completed := "false",
                assignedUser := "", assignedUserName := "unassigned" }] }

/-- Claim C2, counterexample: three successful operations end in a store where one
task id appears in the pendingTasks of two distinct users, violating the
claimed unique-ownership invariant I4. -/
theorem inv4_fails_on_duplicate_pending_payloads :
    runOps emptyStore c2CexOps = some c2CexStore ∧ ¬ Inv4 c2CexStore := by
  constructor
  · decide
  · decide

/-- Claim C2, amended: invariant I4 holds after every sequence of operations in
which each request completes successfully, the ids of the create operations
are genuinely fresh (nonempty for users), user-create payloads carry no
pendingTasks, and every task id newly introduced by a user-replacement
payload names an existing unassigned task. -/
theorem inv4_after_admissible_run (ops : List Op) (s' : Store)
    (h : runAdmissible emptyStore ops = some s') : Inv4 s' :=
  (runAdmissible_goodState (by decide) h).2.2

/-- Operations for the C2 witness, ending with a reassignment through a full
user replacement and a task deletion. -/
def c2RunOps : List Op :=
  [Op.userCreate "aaaaaaaaaaaaaaaaaaaaaaaa"
    { name := some "A", email := some "a@x", pendingTasks := none },
   Op.taskCreate "cccccccccccccccccccccccc"
    { name := some "t", description := none, deadline := some "d",
      completed := none, assignedUser := some "aaaaaaaaaaaaaaaaaaaaaaaa",
      assignedUserName := some "A" },
   Op.userPut "aaaaaaaaaaaaaaaaaaaaaaaa"
    { name := some "A2", email := some "a2@x",
      pendingTasks := some ["cccccccccccccccccccccccc"] },
   Op.taskDelete "cccccccccccccccccccccccc"]

/-- The store reached by `c2RunOps`. -/
def c2RunStore : Store :=
  { users := [{ _id := "aaaaaaaaaaaaaaaaaaaaaaaa", name := "A2",
                email := "a2@x", pendingTasks := [] }],
    tasks := [] }

/-- Witness for the amended C2 at a concrete admissible run. -/
theorem inv4_after_admissible_run_witness :
    runAdmissible emptyStore c2RunOps = some c2RunStore ∧ Inv4 c2RunStore :=
  ⟨by decide, inv4_after_admissible_run c2RunOps c2RunStore (by decide)⟩

/-! Claim C3. -/

theorem findUserById_updateUsersWhere_none {s : Store} {c : User → Bool}
    {f : User → User} {uid : String}
    (hid : ∀ u, c u = true → (f u)._id = u._id)
    (h : findUserById s uid = none) :
    findUserById (updateUsersWhere s c f) uid = none := by
  unfold findUserById at h ⊢
  rw [List.find?_eq_none] at h ⊢
  intro v hv
  simp only [updateUsersWhere_users] at hv
  obtain ⟨u, hu, rfl⟩ := List.mem_map.mp hv
  by_cases hc : c u = true
  · rw [if_pos hc]
    intro habs
    rw [beq_iff_eq, hid u hc] at habs
    exact h u hu (by rw [beq_iff_eq]; exact habs)
  · rw [if_neg hc]
    exact h u hu

/-- Claim C3, amended: when PUT /tasks/:id changes a non-empty assignment to a
non-empty assignedUser that identifies no existing User, the request responds
400 and the Task documents are unchanged — but the dollar-pull against the
old owner has already run, so the old owner no longer lists the Task: the
response store is exactly the original one with the Task id pulled from the
pendingTasks of every user whose id is the old assignedUser. -/
theorem tasks_put_bad_user_rejects_after_pull (s : Store) (tid : String)
    (p : TaskPayload) (t : MP3.Task)
    (hv : isValidObjectId tid = true)
    (hf : findTaskById s tid = some t)
    (hch : p.assignedUser ≠ some t.assignedUser)
    (hold : t.assignedUser ≠ "")
    (hnew : jsStr p.assignedUser ≠ "")
    (hnou : findUserById s (jsStr p.assignedUser) = none) :
    tasksPut s tid p
      = (400, updateUsersWhere s (fun u => u._id == t.assignedUser)
          (fun u => pullPending u tid))
    ∧ (tasksPut s tid p).2.tasks = s.tasks := by
  have hmain : tasksPut s tid p
      = (400, updateUsersWhere s (fun u => u._id == t.assignedUser)
          (fun u => pullPending u tid)) := by
    simp only [tasksPut, hv, Bool.not_true, Bool.false_eq_true, if_false, hf]
    rw [if_neg (by rw [beq_iff_eq]; exact hch : ¬((p.assignedUser == some t.assignedUser) = true))]
    rw [if_pos (by rw [Bool.not_eq_true', beq_eq_false_iff_ne]; exact hold :
      (!(t.assignedUser == "")) = true)]
    rw [if_pos (by rw [Bool.not_eq_true', beq_eq_false_iff_ne]; exact hnew :
      (!(jsStr p.assignedUser == "")) = true)]
    rw [findUserById_updateUsersWhere_none (fun u _ => pullPending_id u tid) hnou]
  refine ⟨hmain, ?_⟩
  rw [hmain]
  rfl

/-- Store for the C3 counterexample and witness: user A owns task c. -/
def c3Store : Store :=
  { users := [{ _id := "aaaaaaaaaaaaaaaaaaaaaaaa", name := "A", email := "a@x",
                pendingTasks := ["cccccccccccccccccccccccc"] }],
    tasks := [{ _id := "cccccccccccccccccccccccc", name := "t",
                description := "", deadline := "d", completed := "false",
                assignedUser := "aaaaaaaaaaaaaaaaaaaaaaaa",
                assignedUserName := "A" }] }

/-- Payload reassigning the task to a nonexistent user id. -/
def c3Payload : TaskPayload :=
  { name := some "t", description := none, deadline := some "d",
    completed := none, assignedUser := some "eeeeeeeeeeeeeeeeeeeeeeee",
    assignedUserName := some "E" }

/-- Claim C3, counterexample: the rejected PUT /tasks/:id has already mutated the
store — the old owner A ends with empty pendingTasks even though the request
failed with 400, so "no store mutation has happened" is false. -/
theorem tasks_put_bad_user_mutates_store :
    tasksPut c3Store "cccccccccccccccccccccccc" c3Payload
      = (400,
        { users := [{ _id := "aaaaaaaaaaaaaaaaaaaaaaaa", name := "A",
                      email := "a@x", pendingTasks := [] }],
          tasks := c3Store.tasks })
    ∧ (tasksPut c3Store "cccccccccccccccccccccccc" c3Payload).2 ≠ c3Store := by
  constructor
  · decide
  · decide

/-- Witness for the amended C3 at a concrete input. -/
theorem tasks_put_bad_user_rejects_after_pull_witness :
    tasksPut c3Store "cccccccccccccccccccccccc" c3Payload
      = (400, updateUsersWhere c3Store
          (fun u => u._id == "aaaaaaaaaaaaaaaaaaaaaaaa")
          (fun u => pullPending u "cccccccccccccccccccccccc"))
    ∧ (tasksPut c3Store "cccccccccccccccccccccccc" c3Payload).2.tasks
        = c3Store.tasks :=
  tasks_put_bad_user_rejects_after_pull c3Store "cccccccccccccccccccccccc"
    c3Payload
    { _id := "cccccccccccccccccccccccc", name := "t", description := "",
      deadline := "d", completed := "false",
      assignedUser := "aaaaaaaaaaaaaaaaaaaaaaaa", assignedUserName := "A" }
    (by decide) (by decide) (by decide) (by decide) (by decide) (by decide)

/-! Claim C4. -/

/-- Claim C4, counterexample: POST /tasks with an empty assignedUser but a payload
assignedUserName of "Bob" persists the task with assignedUser = "" and
assignedUserName = "Bob", so an unassigned task need not carry the
"unassigned" marker. -/
theorem unassigned_task_keeps_payload_name :
    tasksCreate emptyStore "dddddddddddddddddddddddd"
      { name := some "t", description := none, deadline := some "d",
        completed := none, assignedUser := none,
        assignedUserName := some "Bob" }
      = (201,
        { users := [],
          tasks := [{ _id := "dddddddddddddddddddddddd", name := "t",
                      description := "", deadline := "d", completed := "false",
                      assignedUser := "", assignedUserName := "Bob" }] }) := by
  decide

/-- Claim C4, amended: assignedUserName is a payload-controlled field with default
"unassigned": a Task created by POST /tasks, or replaced by PUT /tasks/:id,
with falsy assignedUser and falsy assignedUserName ends with
assignedUser = "" and assignedUserName = "unassigned" (and a creation with a
fresh id adds the id to no pendingTasks); when the payload supplies a
non-empty assignedUserName it is stored verbatim even though assignedUser is
empty, and user-side payloads may still list an unassigned task. -/
theorem unassigned_name_default_semantics :
    (∀ (s : Store) (fid : String) (p : TaskPayload),
      jsStr p.name ≠ "" → jsStr p.deadline ≠ "" →
      jsStr p.assignedUser = "" → jsStr p.assignedUserName = "" →
      (∀ u ∈ s.users, fid ∉ u.pendingTasks) →
      tasksCreate s fid p = (201, insertTask s (taskFromPayload fid p))
        ∧ (taskFromPayload fid p).assignedUser = ""
        ∧ (taskFromPayload fid p).assignedUserName = "unassigned"
        ∧ ∀ u ∈ (insertTask s (taskFromPayload fid p)).users,
            fid ∉ u.pendingTasks)
    ∧ (∀ (s : Store) (tid : String) (p : TaskPayload) (t : MP3.Task),
      isValidObjectId tid = true → findTaskById s tid = some t →
      jsStr p.assignedUser = "" → jsStr p.assignedUserName = "" →
      ∀ t' ∈ (tasksPut s tid p).2.tasks, t'._id = tid →
        t'.assignedUser = "" ∧ t'.assignedUserName = "unassigned") := by
  constructor
  · intro s fid p hn hd hass hassn hfresh
    have hcreate : tasksCreate s fid p = (201, insertTask s (taskFromPayload fid p)) := by
      simp only [tasksCreate]
      rw [if_neg (by
        rw [Bool.or_eq_true, not_or, Bool.not_eq_true, Bool.not_eq_true,
          beq_eq_false_iff_ne, beq_eq_false_iff_ne]
        exact ⟨hn, hd⟩ :
          ¬((jsStr p.name == "" || jsStr p.deadline == "") = true))]
      rw [if_neg (by
        rw [Bool.not_eq_true, Bool.not_eq_false']
        exact beq_iff_eq.mpr hass : ¬((!(jsStr p.assignedUser == "")) = true))]
    refine ⟨hcreate, ?_, ?_, ?_⟩
    · show jsOr p.assignedUser "" = ""
      rw [jsOr_of_empty hass]
    · show jsOr p.assignedUserName "unassigned" = "unassigned"
      rw [jsOr_of_empty hassn]
    · intro u hu
      simp only [insertTask_users] at hu
      exact hfresh u hu
  · intro s tid p t hv hf hass hassn
    have hrepl_ass : (taskFromPayload tid p).assignedUser = "" := by
      show jsOr p.assignedUser "" = ""
      rw [jsOr_of_empty hass]
    have hrepl_nm : (taskFromPayload tid p).assignedUserName = "unassigned" := by
      show jsOr p.assignedUserName "unassigned" = "unassigned"
      rw [jsOr_of_empty hassn]
    have hfields : ∀ (l : List MP3.Task),
        ∀ t' ∈ l.map (fun t0 => if t0._id == tid
          then taskFromPayload tid p else t0), t'._id = tid →
        t'.assignedUser = "" ∧ t'.assignedUserName = "unassigned" := by
      intro l t' ht' hid'
      obtain ⟨t0, ht0, rfl⟩ := List.mem_map.mp ht'
      by_cases hc : (t0._id == tid) = true
      · rw [if_pos hc] at hid' ⊢
        exact ⟨hrepl_ass, hrepl_nm⟩
      · rw [if_neg hc] at hid'
        exact absurd (beq_iff_eq.mpr hid') (by rw [Bool.not_eq_true] at hc ⊢; exact hc)
    simp only [tasksPut, hv, Bool.not_true, Bool.false_eq_true, if_false, hf]
    by_cases hsame : (p.assignedUser == some t.assignedUser) = true
    · rw [if_pos hsame]
      exact hfields s.tasks
    · rw [if_neg hsame]
      rw [if_neg (by
        rw [Bool.not_eq_true, Bool.not_eq_false']
        exact beq_iff_eq.mpr hass : ¬((!(jsStr p.assignedUser == "")) = true))]
      intro t' ht' hid'
      have hs1tasks : (if (!(t.assignedUser == "")) = true then
          updateUsersWhere s (fun u => u._id == t.assignedUser)
            (fun u => pullPending u tid)
        else s).tasks = s.tasks := by
        split <;> rfl
      simp only [updateTasksWhere_tasks, hs1tasks] at ht'
      exact hfields s.tasks t' ht' hid'

/-- Witness for the amended C4 at concrete inputs. -/
theorem unassigned_name_default_semantics_witness :
    (tasksCreate emptyStore "dddddddddddddddddddddddd"
      { name := some "t", description := none, deadline := some "d",
        completed := none, assignedUser := none, assignedUserName := none }
      = (201, insertTask emptyStore (taskFromPayload "dddddddddddddddddddddddd"
          { name := some "t", description := none, deadline := some "d",
            completed := none, assignedUser := none, assignedUserName := none }))
      ∧ (taskFromPayload "dddddddddddddddddddddddd"
          { name := some "t", description := none, deadline := some "d",
            completed := none, assignedUser := none,
            assignedUserName := none }).assignedUser = ""
      ∧ (taskFromPayload "dddddddddddddddddddddddd"
          { name := some "t", description := none, deadline := some "d",
            completed := none, assignedUser := none,
            assignedUserName := none }).assignedUserName = "unassigned"
      ∧ ∀ u ∈ (insertTask emptyStore (taskFromPayload "dddddddddddddddddddddddd"
          { name := some "t", description := none, deadline := some "d",
            completed := none, assignedUser := none,
            assignedUserName := none })).users,
          "dddddddddddddddddddddddd" ∉ u.pendingTasks)
    ∧ (∀ t' ∈ (tasksPut c3Store "cccccccccccccccccccccccc"
        { name := some "t2", description := none, deadline := some "d",
          completed := none, assignedUser := none,
          assignedUserName := none }).2.tasks,
        t'._id = "cccccccccccccccccccccccc" →
        t'.assignedUser = "" ∧ t'.assignedUserName = "unassigned") :=
  ⟨unassigned_name_default_semantics.1 emptyStore "dddddddddddddddddddddddd" _
      (by decide) (by decide) (by decide) (by decide) (by decide),
   unassigned_name_default_semantics.2 c3Store "cccccccccccccccccccccccc" _
      { _id := "cccccccccccccccccccccccc", name := "t", description := "",
        deadline := "d", completed := "false",
        assignedUser := "aaaaaaaaaaaaaaaaaaaaaaaa", assignedUserName := "A" }
      (by decide) (by decide) (by decide) (by decide)⟩

/-! Claim C5. -/

/-- Claim C5, counterexample: POST /users with a missing name responds 500, not
400 — the users router has no explicit required-field check, so the failing
model save lands in its catch block. (The store is still unchanged.) -/
theorem users_create_missing_name_returns_500 :
    usersCreate emptyStore "aaaaaaaaaaaaaaaaaaaaaaaa"
      { name := none, email := some "a@x", pendingTasks := none }
      = (500, emptyStore) := by
  decide

/-- Claim C5, amended: POST /tasks rejects a create payload missing name or
deadline with 400 before any store mutation; POST /users, which has no
explicit check, rejects a payload missing name or email with 500 (the
model-save failure surfaced by its catch block), likewise without mutating
the store. -/
theorem create_missing_required_fields :
    (∀ (s : Store) (fid : String) (p : TaskPayload),
      jsStr p.name = "" ∨ jsStr p.deadline = "" →
      tasksCreate s fid p = (400, s))
    ∧ (∀ (s : Store) (fid : String) (p : UserPayload),
      jsStr p.name = "" ∨ jsStr p.email = "" →
      usersCreate s fid p = (500, s)) := by
  constructor
  · intro s fid p hmiss
    simp only [tasksCreate]
    rw [if_pos]
    rw [Bool.or_eq_true, beq_iff_eq, beq_iff_eq]
    exact hmiss
  · intro s fid p hmiss
    simp only [usersCreate]
    rw [if_neg]
    intro habs
    simp only [userSaveOk, Bool.and_eq_true, Bool.not_eq_true',
      beq_eq_false_iff_ne] at habs
    rcases hmiss with hmiss | hmiss
    · exact habs.1 hmiss
    · exact habs.2 hmiss

/-- Witness for the amended C5 at concrete inputs. -/
theorem create_missing_required_fields_witness :
    tasksCreate emptyStore "dddddddddddddddddddddddd"
      { name := none, description := none, deadline := some "d",
        completed := none, assignedUser := none, assignedUserName := none }
      = (400, emptyStore)
    ∧ usersCreate emptyStore "aaaaaaaaaaaaaaaaaaaaaaaa"
      { name := some "A", email := none, pendingTasks := none }
      = (500, emptyStore) :=
  ⟨create_missing_required_fields.1 emptyStore "dddddddddddddddddddddddd" _
      (Or.inl (by decide)),
   create_missing_required_fields.2 emptyStore "aaaaaaaaaaaaaaaaaaaaaaaa" _
      (Or.inr (by decide))⟩

/-! Claims C6 and C10 share the closed form of the PUT /users/:id cascade. -/

/-- Closed form of a successful PUT /users/:id: the response is 200 and the
new store unassigns exactly the tasks in the old-minus-new pendingTasks
difference, assigns exactly the new-minus-old ones to this user with the new
name, leaves every other task untouched, and replaces the user document. -/
theorem usersPut_ok_eq (s : Store) (uid nm em : String) (p : UserPayload)
    (eu : User)
    (hv : isValidObjectId uid = true)
    (hn : p.name = some nm) (he : p.email = some em)
    (hf : findUserById s uid = some eu) :
    usersPut s uid p =
      (200,
        { users := s.users.map (fun u => if u._id == uid
            then { _id := uid, name := nm, email := em,
                   pendingTasks := p.pendingTasks.getD [] } else u),
          tasks := s.tasks.map (fun t =>
            if t._id ∈ eu.pendingTasks ∧ t._id ∉ p.pendingTasks.getD []
              then unassignTask t
            else if t._id ∈ p.pendingTasks.getD [] ∧ t._id ∉ eu.pendingTasks
              then { t with assignedUser := uid, assignedUserName := nm }
            else t) }) := by
  simp only [usersPut, hn, he, hf, hv, Bool.not_true, Bool.false_eq_true,
    if_false]
  show ((200,
      { users := s.users.map (fun u => if u._id == uid
          then { _id := uid, name := nm, email := em,
                 pendingTasks := p.pendingTasks.getD [] } else u),
        tasks := (s.tasks.map (fun t =>
            if decide (t._id ∈ eu.pendingTasks)
                && !(decide (t._id ∈ p.pendingTasks.getD []))
              then unassignTask t else t)).map (fun t =>
            if decide (t._id ∈ p.pendingTasks.getD [])
                && !(decide (t._id ∈ eu.pendingTasks))
              then { t with assignedUser := uid, assignedUserName := nm }
              else t) }) : Nat × Store) = _
  rw [cascade_map_eq]

/-- Claim C6: the PUT /users/:id cascade is the symmetric difference of the old
and new pendingTasks sets — tasks leaving the set are unassigned, tasks
entering the set are assigned to this user with the payload (new) name, and
tasks in both sets are left entirely unchanged even when the name changed. -/
theorem users_put_cascade_diff (s : Store) (uid nm em : String)
    (p : UserPayload) (eu : User)
    (hv : isValidObjectId uid = true)
    (hn : p.name = some nm) (he : p.email = some em)
    (hf : findUserById s uid = some eu) :
    usersPut s uid p =
      (200,
        { users := s.users.map (fun u => if u._id == uid
            then { _id := uid, name := nm, email := em,
                   pendingTasks := p.pendingTasks.getD [] } else u),
          tasks := s.tasks.map (fun t =>
            if t._id ∈ eu.pendingTasks ∧ t._id ∉ p.pendingTasks.getD []
              then unassignTask t
            else if t._id ∈ p.pendingTasks.getD [] ∧ t._id ∉ eu.pendingTasks
              then { t with assignedUser := uid, assignedUserName := nm }
            else t) }) :=
  usersPut_ok_eq s uid nm em p eu hv hn he hf

/-- Store for the C6 witness: user A owns tasks c and d; task e is
unassigned. -/
def c6Store : Store :=
  { users := [{ _id := "aaaaaaaaaaaaaaaaaaaaaaaa", name := "A", email := "a@x",
                pendingTasks := ["cccccccccccccccccccccccc",
                                 "dddddddddddddddddddddddd"] }],
    tasks := [{ _id := "cccccccccccccccccccccccc", name := "t1",
                description := "", deadline := "d", completed := "false",
                assignedUser := "aaaaaaaaaaaaaaaaaaaaaaaa",
                assignedUserName := "A" },
              { _id := "dddddddddddddddddddddddd", name := "t2",
                description := "", deadline := "d", completed := "false",
                assignedUser := "aaaaaaaaaaaaaaaaaaaaaaaa",
                assignedUserName := "A" },
              { _id := "eeeeeeeeeeeeeeeeeeeeeeee", name := "t3",
                description := "", deadline := "d", completed := "false",
                assignedUser := "", assignedUserName := "unassigned" }] }

/-- Payload for the C6 witness: keep task c, drop task d, add task e, and
rename the user. -/
def c6Payload : UserPayload :=
  { name := some "A2", email := some "a2@x",
    pendingTasks := some ["cccccccccccccccccccccccc",
                          "eeeeeeeeeeeeeeeeeeeeeeee"] }

/-- Witness for C6 at a concrete replacement exercising all three cascade
categories with a simultaneous rename. -/
theorem users_put_cascade_diff_witness :
    usersPut c6Store "aaaaaaaaaaaaaaaaaaaaaaaa" c6Payload =
      (200,
        { users := c6Store.users.map (fun u =>
            if u._id == "aaaaaaaaaaaaaaaaaaaaaaaa"
            then { _id := "aaaaaaaaaaaaaaaaaaaaaaaa", name := "A2",
                   email := "a2@x",
                   pendingTasks := c6Payload.pendingTasks.getD [] } else u),
          tasks := c6Store.tasks.map (fun t =>
            if t._id ∈ ["cccccccccccccccccccccccc",
                        "dddddddddddddddddddddddd"]
                ∧ t._id ∉ c6Payload.pendingTasks.getD []
              then unassignTask t
            else if t._id ∈ c6Payload.pendingTasks.getD []
                ∧ t._id ∉ ["cccccccccccccccccccccccc",
                           "dddddddddddddddddddddddd"]
              then { t with assignedUser := "aaaaaaaaaaaaaaaaaaaaaaaa", assignedUserName := "A2" }
            else t) }) :=
  users_put_cascade_diff c6Store "aaaaaaaaaaaaaaaaaaaaaaaa" "A2" "a2@x"
    c6Payload
    { _id := "aaaaaaaaaaaaaaaaaaaaaaaa", name := "A", email := "a@x",
      pendingTasks := ["cccccccccccccccccccccccc",
                       "dddddddddddddddddddddddd"] }
    (by decide) (by decide) (by decide) (by decide)

/-! Claim C10. -/

/-- Claim C10: a PUT /users/:id payload that omits pendingTasks (or supplies a
non-array value) replaces it by the empty array: every task in the old
pendingTasks set is bulk-unassigned and the stored user ends with empty
pendingTasks. -/
theorem users_put_missing_pending_unassigns_all (s : Store)
    (uid nm em : String) (p : UserPayload) (eu : User)
    (hv : isValidObjectId uid = true)
    (hn : p.name = some nm) (he : p.email = some em)
    (hf : findUserById s uid = some eu)
    (hnone : p.pendingTasks = none) :
    usersPut s uid p =
      (200,
        { users := s.users.map (fun u => if u._id == uid
            then { _id := uid, name := nm, email := em, pendingTasks := [] }
            else u),
          tasks := s.tasks.map (fun t =>
            if t._id ∈ eu.pendingTasks then unassignTask t else t) }) := by
  rw [usersPut_ok_eq s uid nm em p eu hv hn he hf, hnone]
  refine congrArg (Prod.mk 200) ?_
  congr 1
  apply List.map_congr_left
  intro t _
  by_cases hm : t._id ∈ eu.pendingTasks
  · rw [if_pos ⟨hm, List.not_mem_nil _⟩, if_pos hm]
  · rw [if_neg (fun hc => hm hc.1),
      if_neg (fun hc => List.not_mem_nil _ hc.1), if_neg hm]

/-- Witness for C10 at a concrete input: the payload omits pendingTasks and
both of the previously-owned tasks are unassigned. -/
theorem users_put_missing_pending_unassigns_all_witness :
    usersPut c6Store "aaaaaaaaaaaaaaaaaaaaaaaa"
      { name := some "A3", email := some "a3@x", pendingTasks := none } =
      (200,
        { users := c6Store.users.map (fun u =>
            if u._id == "aaaaaaaaaaaaaaaaaaaaaaaa"
            then { _id := "aaaaaaaaaaaaaaaaaaaaaaaa", name := "A3",
                   email := "a3@x", pendingTasks := [] } else u),
          tasks := c6Store.tasks.map (fun t =>
            if t._id ∈ ["cccccccccccccccccccccccc",
                        "dddddddddddddddddddddddd"]
              then unassignTask t else t) }) :=
  users_put_missing_pending_unassigns_all c6Store "aaaaaaaaaaaaaaaaaaaaaaaa"
    "A3" "a3@x" _
    { _id := "aaaaaaaaaaaaaaaaaaaaaaaa", name := "A", email := "a@x",
      pendingTasks := ["cccccccccccccccccccccccc",
                       "dddddddddddddddddddddddd"] }
    (by decide) (by decide) (by decide) (by decide) (by decide)

/-! Claim C7. -/

/-- Claim C7: DELETE /users/:id on an existing user responds 200 with a store in
which every task whose assignedUser equals this id is unassigned (with
assignedUserName "unassigned") and the user document is gone — the bulk task
update is computed against the pre-delete store, mirroring the
cascade-before-delete order of the source; a well-formed id with no matching
user responds 404 without mutation. -/
theorem users_delete_cascade :
    (∀ (s : Store) (uid : String) (u : User),
      isValidObjectId uid = true → findUserById s uid = some u →
      usersDelete s uid = (200,
        { users := s.users.filter (fun v => !(v._id == uid)),
          tasks := s.tasks.map (fun t => if t.assignedUser == uid
            then unassignTask t else t) })
      ∧ findUserById (usersDelete s uid).2 uid = none)
    ∧ (∀ (s : Store) (uid : String),
      isValidObjectId uid = true → findUserById s uid = none →
      usersDelete s uid = (404, s)) := by
  constructor
  · intro s uid u hv hf
    have hmain : usersDelete s uid = (200,
        { users := s.users.filter (fun v => !(v._id == uid)),
          tasks := s.tasks.map (fun t => if t.assignedUser == uid
            then unassignTask t else t) }) := by
      simp only [usersDelete, hv, Bool.not_true, Bool.false_eq_true, if_false,
        hf]
      rfl
    refine ⟨hmain, ?_⟩
    rw [hmain]
    unfold findUserById
    rw [List.find?_eq_none]
    intro v hv'
    have hv2 : v ∈ s.users.filter (fun v => !(v._id == uid)) := hv'
    have := (List.mem_filter.mp hv2).2
    rw [Bool.not_eq_true'] at this
    rw [this]
    exact Bool.false_ne_true
  · intro s uid hv hf
    simp only [usersDelete, hv, Bool.not_true, Bool.false_eq_true, if_false,
      hf]

/-- Witness for C7: deleting user A unassigns its two tasks and leaves the
unassigned one alone; a lookup of an absent id responds 404. -/
theorem users_delete_cascade_witness :
    (usersDelete c6Store "aaaaaaaaaaaaaaaaaaaaaaaa" = (200,
        { users := c6Store.users.filter
            (fun v => !(v._id == "aaaaaaaaaaaaaaaaaaaaaaaa")),
          tasks := c6Store.tasks.map
            (fun t => if t.assignedUser == "aaaaaaaaaaaaaaaaaaaaaaaa"
              then unassignTask t else t) })
      ∧ findUserById (usersDelete c6Store "aaaaaaaaaaaaaaaaaaaaaaaa").2
          "aaaaaaaaaaaaaaaaaaaaaaaa" = none)
    ∧ usersDelete c6Store "bbbbbbbbbbbbbbbbbbbbbbbb" = (404, c6Store) :=
  ⟨users_delete_cascade.1 c6Store "aaaaaaaaaaaaaaaaaaaaaaaa"
      { _id := "aaaaaaaaaaaaaaaaaaaaaaaa", name := "A", email := "a@x",
        pendingTasks := ["cccccccccccccccccccccccc",
                         "dddddddddddddddddddddddd"] }
      (by decide) (by decide),
   users_delete_cascade.2 c6Store "bbbbbbbbbbbbbbbbbbbbbbbb"
      (by decide) (by decide)⟩

/-! Claim C8. -/

/-- Claim C8: POST /tasks whose payload names a non-empty assignedUser that
identifies no existing user responds 400 with the store unchanged: the Task
document is not created and no pendingTasks is modified. -/
theorem tasks_create_bad_user_no_mutation (s : Store) (fid : String)
    (p : TaskPayload)
    (hass : jsStr p.assignedUser ≠ "")
    (hnou : findUserById s (jsStr p.assignedUser) = none) :
    tasksCreate s fid p = (400, s) := by
  simp only [tasksCreate]
  by_cases hreq : (jsStr p.name == "" || jsStr p.deadline == "") = true
  · rw [if_pos hreq]
  · rw [if_neg hreq]
    rw [if_pos (by rw [Bool.not_eq_true', beq_eq_false_iff_ne]; exact hass :
      (!(jsStr p.assignedUser == "")) = true)]
    simp only [hnou]

/-- Witness for C8 at a concrete input: the task id is not created and user
pendings are untouched because the store is returned unchanged. -/
theorem tasks_create_bad_user_no_mutation_witness :
    tasksCreate c3Store "dddddddddddddddddddddddd"
      { name := some "t", description := none, deadline := some "d",
        completed := none, assignedUser := some "eeeeeeeeeeeeeeeeeeeeeeee",
        assignedUserName := some "E" }
      = (400, c3Store) :=
  tasks_create_bad_user_no_mutation c3Store "dddddddddddddddddddddddd" _
    (by decide) (by decide)

/-! Claim C9. -/

/-- Claim C9: GET /tasks with no limit parameter caps the returned documents at
100; GET /users with no limit (and no skip) returns exactly the documents
matching the filter; on both endpoints a supplied limit that is not a
non-negative integer — NaN-or-fractional or negative — yields a 400
regardless of the other parameters. -/
theorem listing_limit_semantics :
    (∀ (s : Store) (f : MP3.Task → Bool), ∃ xs : List MP3.Task,
      tasksList s (some (some f)) none none none none none
        = (200, ListResult.docs xs) ∧ xs.length ≤ 100)
    ∧ (∀ (s : Store) (g : User → Bool),
      usersList s (some (some g)) none none none none none
        = (200, ListResult.docs (s.users.filter g)))
    ∧ (∀ (s : Store) (whereQ : Option (Option (MP3.Task → Bool)))
        (selectQ sortQ : Option Bool) (skipQ : Option NumParam)
        (L : NumParam) (countQ : Option String),
        (L = NumParam.notInt ∨ ∃ i : Int, i < 0 ∧ L = NumParam.intVal i) →
        (tasksList s whereQ selectQ sortQ skipQ (some L) countQ).1 = 400)
    ∧ (∀ (s : Store) (whereQ : Option (Option (User → Bool)))
        (selectQ sortQ : Option Bool) (skipQ : Option NumParam)
        (L : NumParam) (countQ : Option String),
        (L = NumParam.notInt ∨ ∃ i : Int, i < 0 ∧ L = NumParam.intVal i) →
        (usersList s whereQ selectQ sortQ skipQ (some L) countQ).1 = 400) := by
  refine ⟨?_, ?_, ?_, ?_⟩
  · intro s f
    refine ⟨applyLimit 100 ((s.tasks.filter f).drop 0), rfl, ?_⟩
    rw [show applyLimit 100 ((s.tasks.filter f).drop 0)
        = ((s.tasks.filter f).drop 0).take 100 from rfl, List.length_take]
    exact min_le_left _ _
  · intro s g
    rfl
  · intro s whereQ selectQ sortQ skipQ L countQ hbad
    have htail : ∀ (filter : MP3.Task → Bool) (skip : Nat),
        (tasksListTail s filter skip (some L) countQ).1 = 400 := by
      intro filter skip
      rcases hbad with rfl | ⟨i, hi, rfl⟩
      · rfl
      · simp only [tasksListTail]
        rw [if_pos hi]
    have hbody : ∀ (filter : MP3.Task → Bool),
        (if (selectQ == some false) = true then (400, ListResult.err)
         else if (sortQ == some false) = true then (400, ListResult.err)
         else match skipQ with
          | some NumParam.notInt => (400, ListResult.err)
          | some (NumParam.intVal i) =>
            if i < 0 then (400, ListResult.err)
            else tasksListTail s filter i.toNat (some L) countQ
          | none => tasksListTail s filter 0 (some L) countQ).1 = 400 := by
      intro filter
      by_cases hsel : (selectQ == some false) = true
      · rw [if_pos hsel]
      · rw [if_neg hsel]
        by_cases hsort : (sortQ == some false) = true
        · rw [if_pos hsort]
        · rw [if_neg hsort]
          rcases skipQ with _ | sp
          · exact htail filter 0
          · rcases sp with _ | i
            · rfl
            · show (if i < 0
                  then ((400 : Nat), (ListResult.err : ListResult MP3.Task))
                  else tasksListTail s filter i.toNat (some L) countQ).1 = 400
              by_cases hsk : i < 0
              · rw [if_pos hsk]
              · rw [if_neg hsk]
                exact htail filter i.toNat
    rcases whereQ with _ | wf
    · exact hbody _
    · rcases wf with _ | f
      · rfl
      · exact hbody _
  · intro s whereQ selectQ sortQ skipQ L countQ hbad
    have htail : ∀ (filter : User → Bool) (skip : Nat),
        (usersListTail s filter skip (some L) countQ).1 = 400 := by
      intro filter skip
      rcases hbad with rfl | ⟨i, hi, rfl⟩
      · rfl
      · simp only [usersListTail]
        rw [if_pos hi]
    have hbody : ∀ (filter : User → Bool),
        (if (selectQ == some false) = true then (400, ListResult.err)
         else if (sortQ == some false) = true then (400, ListResult.err)
         else match skipQ with
          | some NumParam.notInt => (400, ListResult.err)
          | some (NumParam.intVal i) =>
            if i < 0 then (400, ListResult.err)
            else usersListTail s filter i.toNat (some L) countQ
          | none => usersListTail s filter 0 (some L) countQ).1 = 400 := by
      intro filter
      by_cases hsel : (selectQ == some false) = true
      · rw [if_pos hsel]
      · rw [if_neg hsel]
        by_cases hsort : (sortQ == some false) = true
        · rw [if_pos hsort]
        · rw [if_neg hsort]
          rcases skipQ with _ | sp
          · exact htail filter 0
          · rcases sp with _ | i
            · rfl
            · show (if i < 0
                  then ((400 : Nat), (ListResult.err : ListResult User))
                  else usersListTail s filter i.toNat (some L) countQ).1 = 400
              by_cases hsk : i < 0
              · rw [if_pos hsk]
              · rw [if_neg hsk]
                exact htail filter i.toNat
    rcases whereQ with _ | wf
    · exact hbody _
    · rcases wf with _ | f
      · rfl
      · exact hbody _

/-- Witness for C9 at concrete inputs. -/
theorem listing_limit_semantics_witness :
    (∃ xs : List MP3.Task,
      tasksList c6Store (some (some (fun _ => true))) none none none none none
        = (200, ListResult.docs xs) ∧ xs.length ≤ 100)
    ∧ usersList c6Store (some (some (fun _ => true))) none none none none none
        = (200, ListResult.docs (c6Store.users.filter (fun _ => true)))
    ∧ (tasksList c6Store none none none none (some NumParam.notInt) none).1
        = 400
    ∧ (usersList c6Store none none none none
        (some (NumParam.intVal (-3))) none).1 = 400 :=
  ⟨listing_limit_semantics.1 c6Store (fun _ => true),
   listing_limit_semantics.2.1 c6Store (fun _ => true),
   listing_limit_semantics.2.2.1 c6Store none none none none NumParam.notInt
     none (Or.inl rfl),
   listing_limit_semantics.2.2.2 c6Store none none none none
     (NumParam.intVal (-3)) none (Or.inr ⟨-3, by decide, rfl⟩)⟩

end MP3
